import Mathlib

set_option autoImplicit false

/-!
Shallow embedding of `src/parsers/tiff.mjs` (exifr's TIFF/EXIF parser core).

The byte buffer is a list of bytes; the endian-aware byte reader
(`BufferView.mjs`, an injected dependency that is not part of the core
source) is modelled from the spec: every primitive read takes an absolute
offset and fails with `offsetOutOfBounds` when the read extends past the
buffer.  JavaScript numbers appearing as decoded tag values are modelled by
`JSNum`: integers exactly, finite quotients of 32-bit rationals exactly as
rationals, the non-finite results of division by zero symbolically, and
IEEE float/double reads by their raw bit patterns (no claim inspects the
IEEE decoding itself).  JavaScript objects (tag maps) are association lists
with string keys, as in JS, where numeric keys are stringified; insertion
updates an existing key in place.  Thrown `Error`s are classified by the
three error kinds of the design: `malformedHeader`, `unknownFieldType`,
`offsetOutOfBounds` (plus `typeError` for the spread of a non-array value
in the GPS post-processing step, which JS would surface as a `TypeError`).
-/

inductive TiffErr where
  | malformedHeader
  | unknownFieldType
  | offsetOutOfBounds
  | typeError
  deriving DecidableEq, Repr

instance {α β : Type} [DecidableEq α] [DecidableEq β] : DecidableEq (Except α β) := fun x y =>
  match x, y with
  | .ok a, .ok b =>
    if h : a = b then isTrue (by rw [h]) else isFalse (fun hc => by injection hc; contradiction)
  | .error a, .error b =>
    if h : a = b then isTrue (by rw [h]) else isFalse (fun hc => by injection hc; contradiction)
  | .ok _, .error _ => isFalse (fun hc => by injection hc)
  | .error _, .ok _ => isFalse (fun hc => by injection hc)

/-- A JavaScript number as produced by the decoder: exact integers from the
integer reads, exact rationals for finite division results, the non-finite
division results, and raw bit patterns for the IEEE float/double reads. -/
inductive JSNum where
  | int : Int → JSNum
  | fin : Rat → JSNum
  | posInf : JSNum
  | negInf : JSNum
  | nan : JSNum
  | float32 : Nat → JSNum
  | float64 : Nat → JSNum
  deriving DecidableEq, Repr

/-- `true` exactly for the non-finite numbers (infinities and NaN). -/
def JSNum.nonFinite : JSNum → Bool
  | .posInf => true
  | .negInf => true
  | .nan => true
  | _ => false

/-- Result of `n / d` on two unsigned 32-bit reads (JS `/` on exact
integer operands): division by zero gives NaN for `0/0` and `+Infinity`
otherwise; a nonzero denominator gives the exact finite quotient. -/
def jsDivU (n d : Nat) : JSNum :=
  if d = 0 then (if n = 0 then .nan else .posInf)
  else .fin ((n : Rat) / (d : Rat))

/-- Result of `n / d` on two signed 32-bit reads. -/
def jsDivI (n d : Int) : JSNum :=
  if d = 0 then (if n = 0 then .nan else if 0 < n then .posInf else .negInf)
  else .fin ((n : Rat) / (d : Rat))

/-- A decoded tag value: a number, an ASCII string (kept as its character
codes), an `UNDEFINED` byte slice, or an array of numbers. -/
inductive JSVal where
  | num : JSNum → JSVal
  | str : List Nat → JSVal
  | bytes : List Nat → JSVal
  | arr : List JSNum → JSVal
  deriving DecidableEq, Repr

/-- IEEE-754 single truthiness: falsy exactly for `±0` and NaN. -/
def float32Truthy (bits : Nat) : Bool :=
  !(bits % 2 ^ 31 == 0 || ((bits / 2 ^ 23) % 2 ^ 8 == 255 && bits % 2 ^ 23 != 0))

/-- IEEE-754 double truthiness: falsy exactly for `±0` and NaN. -/
def float64Truthy (bits : Nat) : Bool :=
  !(bits % 2 ^ 63 == 0 || ((bits / 2 ^ 52) % 2 ^ 11 == 2047 && bits % 2 ^ 52 != 0))

/-- JavaScript truthiness of a number. -/
def JSNum.truthy : JSNum → Bool
  | .int i => i != 0
  | .fin q => q != 0
  | .posInf => true
  | .negInf => true
  | .nan => false
  | .float32 b => float32Truthy b
  | .float64 b => float64Truthy b

/-- JavaScript truthiness of a decoded value (strings falsy iff empty;
objects — byte slices and arrays — always truthy). -/
def JSVal.truthy : JSVal → Bool
  | .num n => n.truthy
  | .str l => !l.isEmpty
  | .bytes _ => true
  | .arr _ => true

/-- Truthiness of a possibly-undefined value (`undefined` is falsy). -/
def truthyOpt : Option JSVal → Bool
  | none => false
  | some v => v.truthy

/-- A JavaScript object used as a tag map: an association list with string
keys in insertion order.  Numeric tag codes become string keys as in JS. -/
abbrev ObjMap := List (String × JSVal)

/-- The string key a numeric tag code gets in a JS object. -/
def natKey (n : Nat) : String := toString n

/-- `m[k]` — first (and, for maps built by `objSet`, only) binding of `k`. -/
def objGet (m : ObjMap) (k : String) : Option JSVal :=
  (m.find? (fun p => p.1 == k)).map Prod.snd

/-- `m[k] = v` — update the binding in place if the key is present,
 otherwise append it (JS property assignment). -/
def objSet (m : ObjMap) (k : String) (v : JSVal) : ObjMap :=
  if m.any (fun p => p.1 == k) then
    m.map (fun p => if p.1 == k then (k, v) else p)
  else m ++ [(k, v)]

/-- `delete m[k]`. -/
def objDel (m : ObjMap) (k : String) : ObjMap :=
  m.filter (fun p => p.1 != k)

/-- Lookup through a possibly-undefined object (`undefined[k]` is never
evaluated by the embedded code; this is `m && m[k]`-style access). -/
def objGetO (b : Option ObjMap) (k : String) : Option JSVal :=
  match b with
  | none => none
  | some m => objGet m k

/-- The byte buffer handed over by the segment scanner. -/
abbrev Buffer := List Nat

/-- Modelled from the spec: the random-access byte reader (`BufferView.mjs`
is not under `src/`).  Reads `n` bytes at absolute offset `off`, failing
with `offsetOutOfBounds` when the read extends past the buffer. -/
def readBytes (buf : Buffer) (off n : Nat) : Except TiffErr (List Nat) :=
  if off + n ≤ buf.length then .ok (((buf.drop off).take n).map (· % 256))
  else .error .offsetOutOfBounds

/-- Big-endian assembly of a byte list into an unsigned integer. -/
def beBytesToNat (bs : List Nat) : Nat :=
  bs.foldl (fun acc b => acc * 256 + b) 0

/-- Unsigned `n`-byte read honouring the endianness flag. -/
def getUN (n : Nat) (le : Bool) (buf : Buffer) (off : Nat) : Except TiffErr Nat :=
  (readBytes buf off n).map (fun bs => beBytesToNat (if le then bs.reverse else bs))

def getU8 (le : Bool) (buf : Buffer) (off : Nat) : Except TiffErr Nat := getUN 1 le buf off

def getU16 (le : Bool) (buf : Buffer) (off : Nat) : Except TiffErr Nat := getUN 2 le buf off

def getU32 (le : Bool) (buf : Buffer) (off : Nat) : Except TiffErr Nat := getUN 4 le buf off

/-- Two's-complement reinterpretation of an unsigned 8-bit value. -/
def toInt8 (u : Nat) : Int := if u < 2 ^ 7 then (u : Int) else (u : Int) - 2 ^ 8

/-- Two's-complement reinterpretation of an unsigned 16-bit value. -/
def toInt16 (u : Nat) : Int := if u < 2 ^ 15 then (u : Int) else (u : Int) - 2 ^ 16

/-- Two's-complement reinterpretation of an unsigned 32-bit value. -/
def toInt32 (u : Nat) : Int := if u < 2 ^ 31 then (u : Int) else (u : Int) - 2 ^ 32

def getI32 (le : Bool) (buf : Buffer) (off : Nat) : Except TiffErr Int :=
  (getU32 le buf off).map toInt32

export TiffErr (malformedHeader unknownFieldType offsetOutOfBounds)

def TIFF_LITTLE_ENDIAN : Nat := 0x4949

def TIFF_BIG_ENDIAN : Nat := 0x4D4D

def THUMB_OFFSET : Nat := 0x0201

def THUMB_LENGTH : Nat := 0x0202

def GPS_LATREF : Nat := 0x0001

def GPS_LAT : Nat := 0x0002

def GPS_LONREF : Nat := 0x0003

def GPS_LON : Nat := 0x0004

/-- Modelled from the spec: the pointer tag codes imported from `tags.mjs`
(not under `src/`); the values follow the source's own comments
(`0x8769` EXIF IFD, `0x8825` GPS IFD, `0xA005` Interop IFD). -/
def TAG_IFD_EXIF : Nat := 0x8769

/-- Modelled from the spec: GPS IFD pointer tag code (see `TAG_IFD_EXIF`). -/
def TAG_IFD_GPS : Nat := 0x8825

/-- Modelled from the spec: Interop IFD pointer tag code (see `TAG_IFD_EXIF`). -/
def TAG_IFD_INTEROP : Nat := 0xA005

/-- `SIZE_LOOKUP`: storage width in bytes of each TIFF field type code;
`none` for an unrecognized code (JS indexing yields `undefined`). -/
def SIZE_LOOKUP (typ : Nat) : Option Nat :=
  if typ = 1 then some 1
  else if typ = 2 then some 1
  else if typ = 3 then some 2
  else if typ = 4 then some 4
  else if typ = 5 then some 8
  else if typ = 6 then some 1
  else if typ = 7 then some 1
  else if typ = 8 then some 2
  else if typ = 9 then some 4
  else if typ = 10 then some 8
  else if typ = 11 then some 4
  else if typ = 12 then some 8
  else if typ = 13 then some 4
  else none

/-- Leading-NUL stripper used to express the trailing-NUL loop
structurally on the reversed byte list. -/
def stripLeadingNulls : List Nat → List Nat
  | [] => []
  | b :: t => if b = 0 then stripLeadingNulls t else b :: t

/-- The `while (string.endsWith('\x00')) string = string.slice(0, -1)`
loop: repeatedly remove a trailing NUL character. -/
def stripTrailingNulls (l : List Nat) : List Nat :=
  (stripLeadingNulls l.reverse).reverse

/-- `TiffCore.parseTagValue`: decode one scalar of the given field type at
the given offset (the `switch` over type codes). -/
def parseTagValue (le : Bool) (buf : Buffer) (typ off : Nat) : Except TiffErr JSNum :=
  if typ = 1 then (getU8 le buf off).map (fun u => .int (Int.ofNat u))
  else if typ = 3 then (getU16 le buf off).map (fun u => .int (Int.ofNat u))
  else if typ = 4 then (getU32 le buf off).map (fun u => .int (Int.ofNat u))
  else if typ = 5 then
    match getU32 le buf off with
    | .error e => .error e
    | .ok n =>
      match getU32 le buf (off + 4) with
      | .error e => .error e
      | .ok d => .ok (jsDivU n d)
  else if typ = 6 then (getU8 le buf off).map (fun u => .int (toInt8 u))
  else if typ = 8 then (getU16 le buf off).map (fun u => .int (toInt16 u))
  else if typ = 9 then (getU32 le buf off).map (fun u => .int (toInt32 u))
  else if typ = 10 then
    match getI32 le buf off with
    | .error e => .error e
    | .ok n =>
      match getI32 le buf (off + 4) with
      | .error e => .error e
      | .ok d => .ok (jsDivI n d)
  else if typ = 11 then (getU32 le buf off).map (fun u => .float32 u)
  else if typ = 12 then (getUN 8 le buf off).map (fun u => .float64 u)
  else if typ = 13 then (getU32 le buf off).map (fun u => .int (Int.ofNat u))
  else .error .unknownFieldType

/-- The part of `TiffCore.parseTag` from the bounds check on: given the
resolved value location, check it against the buffer length, then decode
the ASCII / UNDEFINED special cases or the scalar(s). -/
def parseTagPayload (le : Bool) (buf : Buffer) (typ cnt valueOffset : Nat) :
    Except TiffErr JSVal :=
  if valueOffset > buf.length then .error .offsetOutOfBounds
  else if typ = 2 then
    (readBytes buf valueOffset cnt).map (fun bs => .str (stripTrailingNulls bs))
  else if typ = 7 then
    (readBytes buf valueOffset cnt).map .bytes
  else if cnt = 1 then
    (parseTagValue le buf typ valueOffset).map .num
  else
    ((List.range cnt).mapM
      (fun i => parseTagValue le buf typ (valueOffset + i * (SIZE_LOOKUP typ).getD 0))).map .arr

/-- `TiffCore.parseTag`: decode the 12-byte directory entry at `offset`.
Reads the type code at `offset+2` and the count at `offset+4`; the value
location is the inline slot `offset+8` when `width * count ≤ 4`, otherwise
the 32-bit offset stored in that slot.  An unrecognized type code makes
the JS comparison `undefined * count <= 4` false, so such an entry takes
the out-of-line branch. -/
def parseTag (le : Bool) (buf : Buffer) (offset : Nat) : Except TiffErr JSVal :=
  match getU16 le buf (offset + 2) with
  | .error e => .error e
  | .ok typ =>
    match getU32 le buf (offset + 4) with
    | .error e => .error e
    | .ok cnt =>
      match ((match SIZE_LOOKUP typ with
              | some w =>
                if w * cnt ≤ 4 then .ok (offset + 8) else getU32 le buf (offset + 8)
              | none => getU32 le buf (offset + 8)) : Except TiffErr Nat) with
      | .error e => .error e
      | .ok valueOffset => parseTagPayload le buf typ cnt valueOffset

/-- `TiffCore.parseTags`: read a 16-bit entry count at `offset`, then decode
the `count` consecutive 12-byte entries that follow, keeping a tag when it
is in the pick list or not in the skip list. -/
def parseTags (le : Bool) (buf : Buffer) (pickTags skipTags : List Nat)
    (offset : Nat) : Except TiffErr ObjMap :=
  match getU16 le buf offset with
  | .error e => .error e
  | .ok entriesCount =>
    (List.range entriesCount).foldlM
      (fun out i =>
        let entryOff := offset + 2 + i * 12
        match getU16 le buf entryOff with
        | .error e => .error e
        | .ok tag =>
          if pickTags.contains tag || !(skipTags.contains tag) then
            match parseTag le buf entryOff with
            | .error e => .error e
            | .ok val => .ok (objSet out (natKey tag) val)
          else .ok out)
      []

/-- The configuration surface consumed by the core (`this.options`). -/
structure Options where
  pickTags : List Nat := []
  skipTags : List Nat := []
  exif : Bool := false
  gps : Bool := false
  interop : Bool := false
  thumbnail : Bool := false
  mergeOutput : Bool := false
  sanitize : Bool := false
  postProcess : Bool := false
  translateTags : Bool := false
  reviveValues : Bool := false
  deriving DecidableEq, Repr

/-- The mutable instance fields of a `Tiff` parser object.  Fields that are
initially `undefined` in JS are `Option`s; `thumbnailParsed` starts falsy. -/
structure TiffState where
  le : Bool := false
  ifd0Offset : Option Nat := none
  ifd1Offset : Option Nat := none
  ifd0 : Option ObjMap := none
  exif : Option ObjMap := none
  gps : Option ObjMap := none
  interop : Option ObjMap := none
  thumbnail : Option ObjMap := none
  thumbnailParsed : Bool := false
  exifOffset : Option JSVal := none
  gpsOffset : Option JSVal := none
  interopOffset : Option JSVal := none
  deriving DecidableEq, Repr

/-- The fresh parser state (`new Tiff(...)` before any parsing). -/
def initState : TiffState := {}

/-- A parse session: the borrowed buffer, the options, and the injected
external collaborators of the post-processor (`translateValue` and the tag
dictionary and `ConvertDMSToDD` from `tiff-tags.mjs`/`tags.mjs`, which are
outside the core and enter only as functions). -/
structure Ctx where
  buf : Buffer
  opts : Options
  translateValueF : String → JSVal → JSVal
  tagDict : String → String → Option String
  convertDMSToDD : List JSNum → Option JSVal → JSNum

/-- The two output shapes (`this.output`). -/
inductive Output where
  | merged : ObjMap → Output
  | grouped : List (String × ObjMap) → Output
  deriving DecidableEq, Repr

/-- Second half of `TiffCore.parseHeader`: set the endianness, then require
the magic word `0x002A` at offset 2. -/
def headerMagic (c : Ctx) (le : Bool) (s : TiffState) : Except TiffErr TiffState :=
  match getU16 le c.buf 2 with
  | .error e => .error e
  | .ok magic =>
    if magic = 0x002A then .ok {s with le := le} else .error .malformedHeader

/-- `TiffCore.parseHeader`: read the byte-order marker at offset 0 (the
marker bytes are palindromic, so this read is endian-independent), select
the endianness or fail, then check the magic word. -/
def parseHeader (c : Ctx) (s : TiffState) : Except TiffErr TiffState :=
  match getU16 false c.buf 0 with
  | .error e => .error e
  | .ok byteOrder =>
    if byteOrder = TIFF_LITTLE_ENDIAN then headerMagic c true s
    else if byteOrder = TIFF_BIG_ENDIAN then headerMagic c false s
    else .error .malformedHeader

/-- `delete ifd0[TAG_IFD_EXIF]; delete ifd0[TAG_IFD_INTEROP];
delete ifd0[TAG_IFD_GPS]` — the sanitization of the emitted IFD0 map. -/
def sanitizeIfd0 (m : ObjMap) : ObjMap :=
  objDel (objDel (objDel m (natKey TAG_IFD_EXIF)) (natKey TAG_IFD_INTEROP)) (natKey TAG_IFD_GPS)

/-- `Tiff.parseIfd0Block`: memoized; reads the IFD0 offset at offset 4,
requires it to be at least 8, decodes the directory, stops early when it is
empty, captures the EXIF/Interop/GPS pointer tag values and optionally
sanitizes the emitted map. -/
def parseIfd0Block (c : Ctx) (s : TiffState) : Except TiffErr TiffState :=
  if s.ifd0.isSome then .ok s
  else
    match getU32 s.le c.buf 4 with
    | .error e => .error e
    | .ok ifd0Offset =>
      if ifd0Offset < 8 then .error .malformedHeader
      else
        match parseTags s.le c.buf c.opts.pickTags c.opts.skipTags ifd0Offset with
        | .error e => .error e
        | .ok m =>
          if m.isEmpty then .ok {s with ifd0Offset := some ifd0Offset, ifd0 := some m}
          else
            .ok {s with
              ifd0Offset := some ifd0Offset,
              ifd0 := some (if c.opts.sanitize then sanitizeIfd0 m else m),
              exifOffset := objGet m (natKey TAG_IFD_EXIF),
              interopOffset := objGet m (natKey TAG_IFD_INTEROP),
              gpsOffset := objGet m (natKey TAG_IFD_GPS)}

/-- Modelled from the spec: using a decoded tag value as a read offset.
The reader takes absolute byte offsets; a value that is not a nonnegative
integer cannot address the buffer and surfaces as a range error from the
reader. -/
def jsOffset : JSVal → Except TiffErr Nat
  | .num (.int i) => if i < 0 then .error .offsetOutOfBounds else .ok i.toNat
  | _ => .error .offsetOutOfBounds

/-- `Tiff.parseExifBlock`: memoized; decodes a directory at the captured
EXIF offset when one was captured. -/
def parseExifBlock (c : Ctx) (s : TiffState) : Except TiffErr TiffState :=
  if s.exif.isSome then .ok s
  else
    match s.exifOffset with
    | none => .ok s
    | some v =>
      match jsOffset v with
      | .error e => .error e
      | .ok off =>
        match parseTags s.le c.buf c.opts.pickTags c.opts.skipTags off with
        | .error e => .error e
        | .ok m => .ok {s with exif := some m}

/-- `Tiff.parseGpsBlock`: memoized; decodes a directory at the captured
GPS offset when one was captured. -/
def parseGpsBlock (c : Ctx) (s : TiffState) : Except TiffErr TiffState :=
  if s.gps.isSome then .ok s
  else
    match s.gpsOffset with
    | none => .ok s
    | some v =>
      match jsOffset v with
      | .error e => .error e
      | .ok off =>
        match parseTags s.le c.buf c.opts.pickTags c.opts.skipTags off with
        | .error e => .error e
        | .ok m => .ok {s with gps := some m}

/-- `Tiff.parseInteropBlock`: memoized;
`this.interopOffset = this.interopOffset || (this.exif && this.exif[TAG_IFD_INTEROP])`
— a falsy IFD0-derived offset falls back to the pointer tag inside the
decoded `exif` block — then decodes only when the result is defined. -/
def parseInteropBlock (c : Ctx) (s : TiffState) : Except TiffErr TiffState :=
  if s.interop.isSome then .ok s
  else
    let fallback : Option JSVal :=
      match s.exif with
      | none => none
      | some ex => objGet ex (natKey TAG_IFD_INTEROP)
    let io := if truthyOpt s.interopOffset then s.interopOffset else fallback
    match io with
    | none => .ok {s with interopOffset := io}
    | some v =>
      match jsOffset v with
      | .error e => .error e
      | .ok off =>
        match parseTags s.le c.buf c.opts.pickTags c.opts.skipTags off with
        | .error e => .error e
        | .ok m => .ok {s with interopOffset := io, interop := some m}

/-- `Tiff.parseThumbnailBlock(force)`: memoized; in merged-output mode it
returns without decoding unless forced; otherwise it follows IFD0's
chained next-IFD pointer (read just past IFD0's entry array), where 0
means "no thumbnail".  The second component is the JS return value
(`undefined`, `false` or `true`). -/
def parseThumbnailBlock (c : Ctx) (force : Bool) (s : TiffState) :
    Except TiffErr (TiffState × Option Bool) :=
  if s.thumbnail.isSome || s.thumbnailParsed then .ok (s, none)
  else if c.opts.mergeOutput && !force then .ok (s, some false)
  else
    match s.ifd0Offset with
    | none => .error .offsetOutOfBounds
    | some ifd0Offset =>
      match getU16 s.le c.buf ifd0Offset with
      | .error e => .error e
      | .ok ifd0Entries =>
        match getU32 s.le c.buf (ifd0Offset + 2 + ifd0Entries * 12) with
        | .error e => .error e
        | .ok ifd1Offset =>
          if ifd1Offset = 0 then .ok ({s with ifd1Offset := some ifd1Offset}, some false)
          else
            match parseTags s.le c.buf c.opts.pickTags c.opts.skipTags ifd1Offset with
            | .error e => .error e
            | .ok m =>
              .ok ({s with ifd1Offset := some ifd1Offset,
                           thumbnail := some m,
                           thumbnailParsed := true}, some true)

/-- One block of the `translateTags || reviveValues` rewriting loop of
`Tiff.postProcess`: optionally revive each value, optionally rename each
key through the per-block dictionary (`dictionary[tag] || tag`), and
rebuild the object from the entries. -/
def reviveBlock (c : Ctx) (key : String) (b : Option ObjMap) : Option ObjMap :=
  match b with
  | none => none
  | some rawTags =>
    let entries := rawTags
    let entries :=
      if c.opts.reviveValues then
        entries.map (fun p => (p.1, c.translateValueF p.1 p.2)) else entries
    let entries :=
      if c.opts.translateTags then
        entries.map (fun p => ((c.tagDict key p.1).getD p.1, p.2)) else entries
    some (entries.foldl (fun acc p => objSet acc p.1 p.2) [])

/-- The GPS refinement step of `Tiff.postProcess`: when both coordinate
component tags are present and truthy, spread each into `ConvertDMSToDD`
together with its hemisphere reference tag and store the results under the
`latitude`/`longitude` keys.  Spreading a truthy non-array value is a JS
`TypeError`. -/
def gpsRefine (c : Ctx) (s : TiffState) : Except TiffErr TiffState :=
  match s.gps with
  | none => .ok s
  | some gps =>
    if truthyOpt (objGet gps (natKey GPS_LAT)) && truthyOpt (objGet gps (natKey GPS_LON)) then
      match objGet gps (natKey GPS_LAT) with
      | some (.arr latArr) =>
        let gps1 := objSet gps "latitude"
          (.num (c.convertDMSToDD latArr (objGet gps (natKey GPS_LATREF))))
        match objGet gps1 (natKey GPS_LON) with
        | some (.arr lonArr) =>
          .ok {s with gps := some (objSet gps1 "longitude"
            (.num (c.convertDMSToDD lonArr (objGet gps1 (natKey GPS_LONREF)))))}
        | _ => .error .typeError
      | _ => .error .typeError
    else .ok s

/-- `Tiff.postProcess`: nothing unless enabled; GPS refinement, then the
per-block revive/translate rewriting when either of those options is on. -/
def postProcess (c : Ctx) (s : TiffState) : Except TiffErr TiffState :=
  if !c.opts.postProcess then .ok s
  else
    match gpsRefine c s with
    | .error e => .error e
    | .ok s =>
      if c.opts.translateTags || c.opts.reviveValues then
        .ok {s with
          ifd0 := reviveBlock c "ifd0" s.ifd0,
          exif := reviveBlock c "exif" s.exif,
          gps := reviveBlock c "gps" s.gps,
          interop := reviveBlock c "interop" s.interop,
          thumbnail := reviveBlock c "thumbnail" s.thumbnail}
      else .ok s

/-- `Object.assign(acc, b)` for a possibly-undefined source object
(`Object.assign` skips `undefined` arguments). -/
def objAssign (acc : ObjMap) (b : Option ObjMap) : ObjMap :=
  match b with
  | none => acc
  | some m => m.foldl (fun acc p => objSet acc p.1 p.2) acc

/-- The flattened map `Object.assign({}, ifd0, exif, gps, interop, thumbnail)`. -/
def mergedMap (s : TiffState) : ObjMap :=
  objAssign (objAssign (objAssign (objAssign (objAssign [] s.ifd0) s.exif) s.gps) s.interop)
    s.thumbnail

def blockKeys : List String := ["ifd0", "exif", "gps", "interop", "thumbnail"]

/-- The named block fields of the parser state, by block key. -/
def blockGet (s : TiffState) (k : String) : Option ObjMap :=
  if k = "ifd0" then s.ifd0
  else if k = "exif" then s.exif
  else if k = "gps" then s.gps
  else if k = "interop" then s.interop
  else if k = "thumbnail" then s.thumbnail
  else none

/-- The output-shaping tail of `Tiff.parse`: one flat map under
`mergeOutput`, otherwise the defined blocks keyed by block name. -/
def buildOutput (mergeOutput : Bool) (s : TiffState) : Output :=
  if mergeOutput then .merged (mergedMap s)
  else .grouped (blockKeys.filterMap (fun k => (blockGet s k).map (fun m => (k, m))))

/-- `Tiff.parse`: header, IFD0, then the EXIF/GPS/Interop/thumbnail blocks
as enabled by the options, post-processing, and output assembly. -/
def parse (c : Ctx) (s : TiffState) : Except TiffErr (TiffState × Output) :=
  match parseHeader c s with
  | .error e => .error e
  | .ok s =>
    match parseIfd0Block c s with
    | .error e => .error e
    | .ok s =>
      match (if c.opts.exif then parseExifBlock c s else .ok s) with
      | .error e => .error e
      | .ok s =>
        match (if c.opts.gps then parseGpsBlock c s else .ok s) with
        | .error e => .error e
        | .ok s =>
          match (if c.opts.interop then parseInteropBlock c s else .ok s) with
          | .error e => .error e
          | .ok s =>
            match (if c.opts.thumbnail then (parseThumbnailBlock c false s).map Prod.fst
                   else .ok s) with
            | .error e => .error e
            | .ok s =>
              match postProcess c s with
              | .error e => .error e
              | .ok s => .ok (s, buildOutput c.opts.mergeOutput s)

/-- A parse context with inert injected collaborators (identity revive, an
empty dictionary, and a constant DMS conversion), for concrete runs. -/
def mkCtx (buf : Buffer) (opts : Options) : Ctx :=
  ⟨buf, opts, fun _ v => v, fun _ _ => none, fun _ _ => .int 0⟩

/-- The endianness selected by the byte-order marker at offset 0, when the
marker is recognized (the marker bytes are palindromic, so the initial
big-endian read is immaterial). -/
def bomLe (buf : Buffer) : Option Bool :=
  match getU16 false buf 0 with
  | .ok bom =>
    if bom = TIFF_LITTLE_ENDIAN then some true
    else if bom = TIFF_BIG_ENDIAN then some false
    else none
  | .error _ => none

/-- Key uniqueness of a tag map (holds for every map the decoder builds). -/
def keysNodup (m : ObjMap) : Prop := (m.map Prod.fst).Nodup

/-- Key uniqueness lifted to a possibly-undefined block. -/
def WFopt : Option ObjMap → Prop
  | none => True
  | some m => keysNodup m

/-- All five block fields of a parser state have unique keys. -/
def StateWF (s : TiffState) : Prop :=
  WFopt s.ifd0 ∧ WFopt s.exif ∧ WFopt s.gps ∧ WFopt s.interop ∧ WFopt s.thumbnail

/-- Equality of two parser states on every field except the
thumbnail-related ones (`ifd1Offset`, `thumbnail`, `thumbnailParsed`). -/
def AgreeExceptThumb (s t : TiffState) : Prop :=
  s.le = t.le ∧ s.ifd0Offset = t.ifd0Offset ∧ s.ifd0 = t.ifd0 ∧ s.exif = t.exif ∧
  s.gps = t.gps ∧ s.interop = t.interop ∧ s.exifOffset = t.exifOffset ∧
  s.gpsOffset = t.gpsOffset ∧ s.interopOffset = t.interopOffset

/-- A minimal little-endian TIFF: header, IFD0 with one SHORT entry
(tag `0x0100` = 640), a next-IFD pointer to IFD1, and IFD1 with one SHORT
entry (tag `0x0103` = 6) and a null next-IFD pointer. -/
def bufLE : Buffer :=
  [0x49, 0x49, 0x2A, 0x00, 0x08, 0x00, 0x00, 0x00,
   0x01, 0x00,
   0x00, 0x01, 0x03, 0x00, 0x01, 0x00, 0x00, 0x00, 0x80, 0x02, 0x00, 0x00,
   0x1A, 0x00, 0x00, 0x00,
   0x01, 0x00,
   0x03, 0x01, 0x03, 0x00, 0x01, 0x00, 0x00, 0x00, 0x06, 0x00, 0x00, 0x00,
   0x00, 0x00, 0x00, 0x00]

/-- One 12-byte entry with the unrecognized type code 14, count 0, and an
in-bounds value-or-offset slot. -/
def bufTypeFourteenCountZero : Buffer :=
  [0x00, 0x01, 0x0E, 0x00, 0x00, 0x00, 0x00, 0x00, 0x04, 0x00, 0x00, 0x00]

/-- One 12-byte entry with type code 14, count 1, in-bounds slot. -/
def bufTypeFourteenCountOne : Buffer :=
  [0x00, 0x01, 0x0E, 0x00, 0x01, 0x00, 0x00, 0x00, 0x04, 0x00, 0x00, 0x00]

/-- One 12-byte entry with type code 14, count 1, out-of-bounds slot. -/
def bufTypeFourteenOOB : Buffer :=
  [0x00, 0x01, 0x0E, 0x00, 0x01, 0x00, 0x00, 0x00, 0xFF, 0xFF, 0x00, 0x00]

/-- One inline SHORT entry whose inline slot bytes (`0xFFFF`), misread as a
32-bit offset, would point far out of bounds. -/
def bufInlineEntry : Buffer :=
  [0x00, 0x01, 0x03, 0x00, 0x01, 0x00, 0x00, 0x00, 0xFF, 0xFF, 0x00, 0x00]

/-- One out-of-line LONG entry (count 2) whose offset slot points at the
8 data bytes that follow the entry. -/
def bufOutOfLineEntry : Buffer :=
  [0x00, 0x01, 0x04, 0x00, 0x02, 0x00, 0x00, 0x00, 0x0C, 0x00, 0x00, 0x00,
   0x01, 0x00, 0x00, 0x00, 0x02, 0x00, 0x00, 0x00]

/-- One out-of-line LONG entry (count 2) whose offset slot `0xFFFF` exceeds
the buffer length. -/
def bufOutOfLineOOB : Buffer :=
  [0x00, 0x01, 0x04, 0x00, 0x02, 0x00, 0x00, 0x00, 0xFF, 0xFF, 0x00, 0x00]

/-- Header and one-entry IFD0 whose next-IFD (thumbnail) pointer `0xFFFF`
exceeds the buffer length. -/
def bufThumbOOB : Buffer :=
  [0x49, 0x49, 0x2A, 0x00, 0x08, 0x00, 0x00, 0x00,
   0x01, 0x00,
   0x00, 0x01, 0x03, 0x00, 0x01, 0x00, 0x00, 0x00, 0x80, 0x02, 0x00, 0x00,
   0xFF, 0xFF, 0x00, 0x00]

/-- One inline ASCII entry, count 4, bytes `"AB\x00\x00"`. -/
def bufAscii : Buffer :=
  [0x00, 0x01, 0x02, 0x00, 0x04, 0x00, 0x00, 0x00, 0x41, 0x42, 0x00, 0x00]

/-- Two unsigned 32-bit words 6 and 3 (a RATIONAL `6/3`). -/
def bufRatio : Buffer := [0x06, 0x00, 0x00, 0x00, 0x03, 0x00, 0x00, 0x00]

/-- Two unsigned 32-bit words 1 and 0 (a RATIONAL with zero denominator). -/
def bufRatioZero : Buffer := [0x01, 0x00, 0x00, 0x00, 0x00, 0x00, 0x00, 0x00]

/-- Two signed 32-bit words `-1` and 2 (an SRATIONAL `-1/2`). -/
def bufSRatio : Buffer := [0xFF, 0xFF, 0xFF, 0xFF, 0x02, 0x00, 0x00, 0x00]

/-- A header with an unrecognized byte-order marker. -/
def bufBadByteOrder : Buffer := [0x00, 0x00, 0x2A, 0x00]

/-- A big-endian header with a wrong magic word. -/
def bufBadMagic : Buffer := [0x4D, 0x4D, 0x00, 0x00]

/-- A little-endian header whose IFD0 offset is 4 (less than 8). -/
def bufIfd0OffsetLow : Buffer :=
  [0x49, 0x49, 0x2A, 0x00, 0x04, 0x00, 0x00, 0x00]

/-- Header and IFD0 with two entries: tag `0x0100` (SHORT 640) and the
EXIF pointer tag `0x8769` (LONG 100). -/
def bufWithExifPointer : Buffer :=
  [0x49, 0x49, 0x2A, 0x00, 0x08, 0x00, 0x00, 0x00,
   0x02, 0x00,
   0x00, 0x01, 0x03, 0x00, 0x01, 0x00, 0x00, 0x00, 0x80, 0x02, 0x00, 0x00,
   0x69, 0x87, 0x04, 0x00, 0x01, 0x00, 0x00, 0x00, 0x64, 0x00, 0x00, 0x00,
   0x00, 0x00, 0x00, 0x00]


/-- Final state of the non-merged reference parse of `bufLE` (thumbnail
decoded). -/
def c6StateF : TiffState :=
  {le := true, ifd0Offset := some 8, ifd1Offset := some 26,
   ifd0 := some [("256", .num (.int 640))],
   thumbnail := some [("259", .num (.int 6))],
   thumbnailParsed := true}

/-- Final state of the merged-mode parse of `bufLE` (thumbnail skipped). -/
def c6StateT : TiffState :=
  {le := true, ifd0Offset := some 8, ifd0 := some [("256", .num (.int 640))]}

/-- A state with all five blocks populated, for the idempotence witness. -/
def c7State : TiffState :=
  {initState with ifd0 := some [], exif := some [], gps := some [],
                  interop := some [], thumbnail := some []}

theorem exceptMap_error {α β : Type} {f : α → β} {x : Except TiffErr α} {e : TiffErr}
    (h : x.map f = .error e) : x = .error e := by
  cases x <;> simp_all [Except.map]

theorem readBytes_error {buf : Buffer} {off n : Nat} {e : TiffErr}
    (h : readBytes buf off n = .error e) : e = .offsetOutOfBounds := by
  unfold readBytes at h
  split at h
  · exact absurd h (by simp)
  · injection h with h
    exact h.symm

theorem getUN_error {n : Nat} {le : Bool} {buf : Buffer} {off : Nat} {e : TiffErr}
    (h : getUN n le buf off = .error e) : e = .offsetOutOfBounds := by
  unfold getUN at h
  cases hr : readBytes buf off n with
  | error e₂ =>
    rw [hr] at h
    simp only [Except.map] at h
    injection h with h
    exact h ▸ readBytes_error hr
  | ok bs =>
    rw [hr] at h
    simp [Except.map] at h

theorem getU16_oob {le : Bool} {buf : Buffer} {off : Nat} (h : buf.length < off) :
    getU16 le buf off = .error .offsetOutOfBounds := by
  unfold getU16 getUN readBytes
  rw [if_neg (by omega)]
  rfl

theorem objGet_nil (k : String) : objGet [] k = none := rfl

theorem objGet_cons (a : String) (b : JSVal) (t : ObjMap) (k : String) :
    objGet ((a, b) :: t) k = if a = k then some b else objGet t k := by
  by_cases h : a = k
  · rw [objGet, List.find?_cons_of_pos _ (by simp [h]), if_pos h]
    rfl
  · rw [objGet, List.find?_cons_of_neg _ (by simp [h]), if_neg h]
    rfl

theorem objGet_map_set_other {m : ObjMap} {k k' : String} {v : JSVal} (h : k' ≠ k) :
    objGet (m.map (fun p => if p.1 == k then (k, v) else p)) k' = objGet m k' := by
  induction m with
  | nil => rfl
  | cons p rest ih =>
    obtain ⟨a, b⟩ := p
    by_cases hp : a = k
    · have h1 : (if ((a, b).1 == k) = true then (k, v) else (a, b)) = (k, v) := by simp [hp]
      simp only [List.map_cons, h1, objGet_cons]
      rw [if_neg (fun hh => h hh.symm), if_neg (fun hh => h (hp ▸ hh).symm), ih]
    · have h1 : (if ((a, b).1 == k) = true then (k, v) else (a, b)) = (a, b) := by simp [hp]
      simp only [List.map_cons, h1, objGet_cons]
      rw [ih]

theorem objGet_map_set_same {m : ObjMap} {k : String} {v : JSVal}
    (h : m.any (fun p => p.1 == k) = true) :
    objGet (m.map (fun p => if p.1 == k then (k, v) else p)) k = some v := by
  induction m with
  | nil => simp at h
  | cons p rest ih =>
    obtain ⟨a, b⟩ := p
    by_cases hp : a = k
    · simp [List.map_cons, hp, objGet_cons]
    · have h1 : (if ((a, b).1 == k) = true then (k, v) else (a, b)) = (a, b) := by simp [hp]
      simp only [List.map_cons, h1, objGet_cons]
      rw [if_neg hp]
      refine ih ?_
      simpa [hp] using h

theorem objGet_append_kv {m : ObjMap} {k k' : String} {v : JSVal}
    (h : m.any (fun p => p.1 == k) = false) :
    objGet (m ++ [(k, v)]) k' = if k' = k then some v else objGet m k' := by
  induction m with
  | nil =>
    rw [List.nil_append, objGet_cons]
    by_cases hk : k' = k
    · rw [if_pos hk.symm, if_pos hk]
    · rw [if_neg (fun hh => hk hh.symm), if_neg hk]
  | cons p rest ih =>
    obtain ⟨a, b⟩ := p
    simp only [List.any_cons, Bool.or_eq_false_iff] at h
    have ha : a ≠ k := by simpa using h.1
    simp only [List.cons_append, objGet_cons]
    by_cases hq : a = k'
    · rw [if_pos hq, if_pos hq, if_neg (fun hh : k' = k => ha (hq.trans hh))]
    · rw [if_neg hq, if_neg hq, ih h.2]

theorem objGet_objSet (m : ObjMap) (k : String) (v : JSVal) (k' : String) :
    objGet (objSet m k v) k' = if k' = k then some v else objGet m k' := by
  unfold objSet
  by_cases h : m.any (fun p => p.1 == k) = true
  · rw [if_pos h]
    by_cases hk : k' = k
    · subst hk
      rw [if_pos rfl, objGet_map_set_same h]
    · rw [if_neg hk, objGet_map_set_other hk]
  · rw [if_neg h, objGet_append_kv (Bool.eq_false_iff.mpr h)]

theorem objGet_objDel (m : ObjMap) (k k' : String) :
    objGet (objDel m k) k' = if k' = k then none else objGet m k' := by
  induction m with
  | nil =>
    simp only [objDel, List.filter_nil, objGet_nil]
    split <;> rfl
  | cons p rest ih =>
    obtain ⟨a, b⟩ := p
    simp only [objDel, List.filter_cons] at ih ⊢
    by_cases hp : a = k
    · rw [if_neg (by simp [hp]), ih]
      by_cases hk : k' = k
      · rw [if_pos hk, if_pos hk]
      · rw [if_neg hk, if_neg hk, objGet_cons, if_neg (hp ▸ fun hh => hk hh.symm)]
    · rw [if_pos (by simp [hp]), objGet_cons, ih]
      by_cases hq : a = k'
      · rw [if_pos hq, if_neg (fun hh : k' = k => hp (hq.trans hh)), objGet_cons, if_pos hq]
      · rw [if_neg hq]
        by_cases hk : k' = k
        · rw [if_pos hk, if_pos hk]
        · rw [if_neg hk, if_neg hk, objGet_cons, if_neg hq]

theorem keysNodup_objSet {m : ObjMap} {k : String} {v : JSVal} (h : keysNodup m) :
    keysNodup (objSet m k v) := by
  unfold objSet
  split
  case isTrue hmem =>
    have hkeys : (m.map (fun p => if p.1 == k then (k, v) else p)).map Prod.fst
        = m.map Prod.fst := by
      rw [List.map_map]
      refine List.map_congr_left ?_
      intro p _
      by_cases hk : p.1 = k
      · simp [hk]
      · simp [hk]
    unfold keysNodup at h ⊢
    rw [hkeys]
    exact h
  case isFalse hmem =>
    unfold keysNodup at h ⊢
    rw [List.map_append]
    refine List.Nodup.append h (by simp) ?_
    intro a ha hb
    simp only [List.map_cons, List.map_nil, List.mem_singleton] at hb
    subst hb
    rcases List.mem_map.mp ha with ⟨p, hp, hpk⟩
    exact hmem (List.any_eq_true.mpr ⟨p, hp, by simp [hpk]⟩)

theorem keysNodup_objDel {m : ObjMap} {k : String} (h : keysNodup m) :
    keysNodup (objDel m k) := by
  unfold keysNodup at h ⊢
  unfold objDel
  exact List.Nodup.sublist (List.Sublist.map Prod.fst (List.filter_sublist m)) h

theorem keysNodup_foldl_objSet (l : List (String × JSVal)) :
    ∀ acc : ObjMap, keysNodup acc →
      keysNodup (l.foldl (fun acc p => objSet acc p.1 p.2) acc) := by
  induction l with
  | nil => intro acc h; exact h
  | cons p t ih => intro acc h; exact ih _ (keysNodup_objSet h)

theorem foldlM_except_preserve {α β : Type} {P : β → Prop} {f : β → α → Except TiffErr β}
    (hf : ∀ acc a acc', P acc → f acc a = .ok acc' → P acc') :
    ∀ (l : List α) (acc m : β), P acc → l.foldlM f acc = .ok m → P m := by
  intro l
  induction l with
  | nil =>
    intro acc m hP h
    simp only [List.foldlM_nil] at h
    injection h with h
    exact h ▸ hP
  | cons a t ih =>
    intro acc m hP h
    rw [List.foldlM_cons] at h
    cases hfa : f acc a with
    | error e => rw [hfa] at h; simp [Bind.bind, Except.bind] at h
    | ok acc' =>
      rw [hfa] at h
      exact ih acc' m (hf _ _ _ hP hfa) (by simpa [Bind.bind, Except.bind] using h)

theorem foldlM_except_error {α β : Type} {P : TiffErr → Prop} {f : β → α → Except TiffErr β}
    (hf : ∀ acc a e, f acc a = .error e → P e) :
    ∀ (l : List α) (acc : β) (e : TiffErr), l.foldlM f acc = .error e → P e := by
  intro l
  induction l with
  | nil =>
    intro acc e h
    simp [List.foldlM_nil, Pure.pure, Except.pure] at h
  | cons a t ih =>
    intro acc e h
    rw [List.foldlM_cons] at h
    cases hfa : f acc a with
    | error e' =>
      rw [hfa] at h
      simp only [Bind.bind, Except.bind] at h
      injection h with h
      exact h ▸ hf _ _ _ hfa
    | ok acc' =>
      rw [hfa] at h
      exact ih acc' e (by simpa [Bind.bind, Except.bind] using h)

theorem listMapM_except_error {α β : Type} {f : α → Except TiffErr β} :
    ∀ (l : List α) (e : TiffErr), l.mapM f = .error e → ∃ a, a ∈ l ∧ f a = .error e := by
  intro l
  induction l with
  | nil => intro e h; simp [List.mapM.loop, Pure.pure, Except.pure] at h
  | cons a t ih =>
    intro e h
    rw [List.mapM_cons] at h
    cases hfa : f a with
    | error e' =>
      rw [hfa] at h
      simp only [Bind.bind, Except.bind] at h
      injection h with h
      exact ⟨a, List.mem_cons_self a t, h ▸ hfa⟩
    | ok b =>
      rw [hfa] at h
      cases hmt : t.mapM f with
      | error e' =>
        rw [hmt] at h
        simp only [Bind.bind, Except.bind] at h
        injection h with h
        rcases ih e' hmt with ⟨a', ha', hfa'⟩
        exact ⟨a', List.mem_cons_of_mem a ha', h ▸ hfa'⟩
      | ok bs =>
        rw [hmt] at h
        simp [Bind.bind, Except.bind, Pure.pure, Except.pure] at h

theorem stripTrailingNulls_concat_zero (l : List Nat) :
    stripTrailingNulls (l ++ [0]) = stripTrailingNulls l := by
  simp [stripTrailingNulls, stripLeadingNulls, List.reverse_append]

theorem stripTrailingNulls_append_replicate (l : List Nat) (k : Nat) :
    stripTrailingNulls (l ++ List.replicate k 0) = stripTrailingNulls l := by
  induction k generalizing l with
  | zero => simp
  | succ k ih =>
    have hsplit : l ++ List.replicate (k + 1) 0 = (l ++ [0]) ++ List.replicate k 0 := by
      simp [List.replicate_succ, List.append_assoc]
    rw [hsplit, ih, stripTrailingNulls_concat_zero]

theorem stripLeadingNulls_head (l : List Nat) :
    (stripLeadingNulls l).head? ≠ some 0 := by
  induction l with
  | nil => simp [stripLeadingNulls]
  | cons b t ih =>
    by_cases hb : b = 0
    · simpa [stripLeadingNulls, hb] using ih
    · simp [stripLeadingNulls, hb]

theorem stripTrailingNulls_getLast (l : List Nat) :
    (stripTrailingNulls l).getLast? ≠ some 0 := by
  unfold stripTrailingNulls
  rw [List.getLast?_reverse]
  exact stripLeadingNulls_head l.reverse

theorem SIZE_LOOKUP_none_parseTagValue {typ : Nat} (h : SIZE_LOOKUP typ = none)
    (le : Bool) (buf : Buffer) (off : Nat) :
    parseTagValue le buf typ off = .error .unknownFieldType := by
  have h1 : typ ≠ 1 := by rintro rfl; exact absurd h (by decide)
  have h3 : typ ≠ 3 := by rintro rfl; exact absurd h (by decide)
  have h4 : typ ≠ 4 := by rintro rfl; exact absurd h (by decide)
  have h5 : typ ≠ 5 := by rintro rfl; exact absurd h (by decide)
  have h6 : typ ≠ 6 := by rintro rfl; exact absurd h (by decide)
  have h8 : typ ≠ 8 := by rintro rfl; exact absurd h (by decide)
  have h9 : typ ≠ 9 := by rintro rfl; exact absurd h (by decide)
  have h10 : typ ≠ 10 := by rintro rfl; exact absurd h (by decide)
  have h11 : typ ≠ 11 := by rintro rfl; exact absurd h (by decide)
  have h12 : typ ≠ 12 := by rintro rfl; exact absurd h (by decide)
  have h13 : typ ≠ 13 := by rintro rfl; exact absurd h (by decide)
  unfold parseTagValue
  rw [if_neg h1, if_neg h3, if_neg h4, if_neg h5, if_neg h6, if_neg h8, if_neg h9,
      if_neg h10, if_neg h11, if_neg h12, if_neg h13]

theorem SIZE_LOOKUP_none_ne {typ : Nat} (h : SIZE_LOOKUP typ = none) :
    typ ≠ 2 ∧ typ ≠ 7 := by
  constructor <;> (rintro rfl; exact absurd h (by decide))

theorem parseTagValue_error {le : Bool} {buf : Buffer} {typ off : Nat} {e : TiffErr}
    (h : parseTagValue le buf typ off = .error e) :
    e = .offsetOutOfBounds ∨ e = .unknownFieldType := by
  unfold parseTagValue at h
  by_cases t1 : typ = 1
  · rw [if_pos t1] at h
    exact Or.inl (getUN_error (exceptMap_error h))
  rw [if_neg t1] at h
  by_cases t3 : typ = 3
  · rw [if_pos t3] at h
    exact Or.inl (getUN_error (exceptMap_error h))
  rw [if_neg t3] at h
  by_cases t4 : typ = 4
  · rw [if_pos t4] at h
    exact Or.inl (getUN_error (exceptMap_error h))
  rw [if_neg t4] at h
  by_cases t5 : typ = 5
  · rw [if_pos t5] at h
    split at h
    · injection h with h
      next heq => exact Or.inl (h ▸ getUN_error heq)
    · split at h
      · injection h with h
        next heq => exact Or.inl (h ▸ getUN_error heq)
      · exact absurd h (by simp)
  rw [if_neg t5] at h
  by_cases t6 : typ = 6
  · rw [if_pos t6] at h
    exact Or.inl (getUN_error (exceptMap_error h))
  rw [if_neg t6] at h
  by_cases t8 : typ = 8
  · rw [if_pos t8] at h
    exact Or.inl (getUN_error (exceptMap_error h))
  rw [if_neg t8] at h
  by_cases t9 : typ = 9
  · rw [if_pos t9] at h
    exact Or.inl (getUN_error (exceptMap_error h))
  rw [if_neg t9] at h
  by_cases t10 : typ = 10
  · rw [if_pos t10] at h
    split at h
    · injection h with h
      next heq => exact Or.inl (h ▸ getUN_error (exceptMap_error heq))
    · split at h
      · injection h with h
        next heq => exact Or.inl (h ▸ getUN_error (exceptMap_error heq))
      · exact absurd h (by simp)
  rw [if_neg t10] at h
  by_cases t11 : typ = 11
  · rw [if_pos t11] at h
    exact Or.inl (getUN_error (exceptMap_error h))
  rw [if_neg t11] at h
  by_cases t12 : typ = 12
  · rw [if_pos t12] at h
    exact Or.inl (getUN_error (exceptMap_error h))
  rw [if_neg t12] at h
  by_cases t13 : typ = 13
  · rw [if_pos t13] at h
    exact Or.inl (getUN_error (exceptMap_error h))
  rw [if_neg t13] at h
  injection h with h
  exact Or.inr h.symm

theorem parseTagPayload_error {le : Bool} {buf : Buffer} {typ cnt vOff : Nat} {e : TiffErr}
    (h : parseTagPayload le buf typ cnt vOff = .error e) :
    e = .offsetOutOfBounds ∨ e = .unknownFieldType := by
  unfold parseTagPayload at h
  split_ifs at h
  · injection h with h
    exact Or.inl h.symm
  · exact Or.inl (readBytes_error (exceptMap_error h))
  · exact Or.inl (readBytes_error (exceptMap_error h))
  · exact parseTagValue_error (exceptMap_error h)
  · rcases listMapM_except_error _ _ (exceptMap_error h) with ⟨a, _, hfa⟩
    exact parseTagValue_error hfa

theorem parseTag_error {le : Bool} {buf : Buffer} {off : Nat} {e : TiffErr}
    (h : parseTag le buf off = .error e) :
    e = .offsetOutOfBounds ∨ e = .unknownFieldType := by
  unfold parseTag at h
  split at h
  · injection h with h
    next heq => exact Or.inl (h ▸ getUN_error heq)
  · split at h
    · injection h with h
      next heq => exact Or.inl (h ▸ getUN_error heq)
    · split at h
      · -- the resolved value offset is an error
        injection h with h
        next heq =>
          split at heq
          · split at heq
            · exact absurd heq (by simp)
            · exact Or.inl (h ▸ getUN_error heq)
          · exact Or.inl (h ▸ getUN_error heq)
      · exact parseTagPayload_error h

theorem parseTags_error {le : Bool} {buf : Buffer} {pick skip : List Nat} {off : Nat}
    {e : TiffErr} (h : parseTags le buf pick skip off = .error e) :
    e = .offsetOutOfBounds ∨ e = .unknownFieldType := by
  unfold parseTags at h
  split at h
  · injection h with h
    next heq => exact Or.inl (h ▸ getUN_error heq)
  · refine @foldlM_except_error _ _ (fun e => e = .offsetOutOfBounds ∨ e = .unknownFieldType)
      _ ?_ _ _ _ h
    intro acc i e₂ hstep
    dsimp only at hstep
    split at hstep
    · injection hstep with hstep
      next heq => exact Or.inl (hstep ▸ getUN_error heq)
    · split at hstep
      · split at hstep
        · injection hstep with hstep
          next heq => exact hstep ▸ parseTag_error heq
        · exact absurd hstep (by simp)
      · exact absurd hstep (by simp)

theorem parseTags_keysNodup {le : Bool} {buf : Buffer} {pick skip : List Nat} {off : Nat}
    {m : ObjMap} (h : parseTags le buf pick skip off = .ok m) : keysNodup m := by
  unfold parseTags at h
  split at h
  · exact absurd h (by simp)
  · refine foldlM_except_preserve ?_ _ _ _ (by simp [keysNodup]) h
    intro acc i acc' hP hstep
    dsimp only at hstep
    split at hstep
    · exact absurd hstep (by simp)
    · split at hstep
      · split at hstep
        · exact absurd hstep (by simp)
        · injection hstep with hstep
          exact hstep ▸ keysNodup_objSet hP
      · injection hstep with hstep
        exact hstep ▸ hP

theorem jsOffset_error {v : JSVal} {e : TiffErr} (h : jsOffset v = .error e) :
    e = .offsetOutOfBounds := by
  unfold jsOffset at h
  split at h
  · split at h
    · injection h with h
      exact h.symm
    · exact absurd h (by simp)
  · injection h with h
    exact h.symm

theorem parseExifBlock_error {c : Ctx} {s : TiffState} {e : TiffErr}
    (h : parseExifBlock c s = .error e) :
    e = .offsetOutOfBounds ∨ e = .unknownFieldType := by
  unfold parseExifBlock at h
  split at h
  · exact absurd h (by simp)
  · split at h
    · exact absurd h (by simp)
    · split at h
      · injection h with h
        next heq => exact Or.inl (h ▸ jsOffset_error heq)
      · split at h
        · injection h with h
          next heq => exact h ▸ parseTags_error heq
        · exact absurd h (by simp)

theorem parseGpsBlock_error {c : Ctx} {s : TiffState} {e : TiffErr}
    (h : parseGpsBlock c s = .error e) :
    e = .offsetOutOfBounds ∨ e = .unknownFieldType := by
  unfold parseGpsBlock at h
  split at h
  · exact absurd h (by simp)
  · split at h
    · exact absurd h (by simp)
    · split at h
      · injection h with h
        next heq => exact Or.inl (h ▸ jsOffset_error heq)
      · split at h
        · injection h with h
          next heq => exact h ▸ parseTags_error heq
        · exact absurd h (by simp)

theorem parseInteropBlock_error {c : Ctx} {s : TiffState} {e : TiffErr}
    (h : parseInteropBlock c s = .error e) :
    e = .offsetOutOfBounds ∨ e = .unknownFieldType := by
  unfold parseInteropBlock at h
  split at h
  · exact absurd h (by simp)
  · dsimp only at h
    split at h
    · exact absurd h (by simp)
    · split at h
      · injection h with h
        next heq => exact Or.inl (h ▸ jsOffset_error heq)
      · split at h
        · injection h with h
          next heq => exact h ▸ parseTags_error heq
        · exact absurd h (by simp)

theorem parseThumbnailBlock_error {c : Ctx} {force : Bool} {s : TiffState} {e : TiffErr}
    (h : parseThumbnailBlock c force s = .error e) :
    e = .offsetOutOfBounds ∨ e = .unknownFieldType := by
  unfold parseThumbnailBlock at h
  split at h
  · exact absurd h (by simp)
  · split at h
    · exact absurd h (by simp)
    · split at h
      · injection h with h
        exact Or.inl h.symm
      · split at h
        · injection h with h
          next heq => exact Or.inl (h ▸ getUN_error heq)
        · split at h
          · injection h with h
            next heq => exact Or.inl (h ▸ getUN_error heq)
          · split at h
            · exact absurd h (by simp)
            · split at h
              · injection h with h
                next heq => exact h ▸ parseTags_error heq
              · exact absurd h (by simp)

theorem gpsRefine_error {c : Ctx} {s : TiffState} {e : TiffErr}
    (h : gpsRefine c s = .error e) : e = .typeError := by
  unfold gpsRefine at h
  split at h
  · exact absurd h (by simp)
  · split at h
    · split at h
      · dsimp only at h
        split at h
        · exact absurd h (by simp)
        · injection h with h
          exact h.symm
      · injection h with h
        exact h.symm
    · exact absurd h (by simp)

theorem postProcess_error {c : Ctx} {s : TiffState} {e : TiffErr}
    (h : postProcess c s = .error e) : e = .typeError := by
  unfold postProcess at h
  split at h
  · exact absurd h (by simp)
  · split at h
    · injection h with h
      next heq => exact h ▸ gpsRefine_error heq
    · split at h
      · exact absurd h (by simp)
      · exact absurd h (by simp)

theorem bomLe_true_iff {buf : Buffer} :
    bomLe buf = some true ↔ getU16 false buf 0 = .ok 0x4949 := by
  unfold bomLe
  cases hb : getU16 false buf 0 with
  | error e => simp
  | ok bom =>
    dsimp only
    by_cases hLE : bom = TIFF_LITTLE_ENDIAN
    · subst hLE
      simp [TIFF_LITTLE_ENDIAN]
    · rw [if_neg hLE]
      by_cases hBE : bom = TIFF_BIG_ENDIAN
      · subst hBE
        simp [TIFF_BIG_ENDIAN, TIFF_LITTLE_ENDIAN]
      · rw [if_neg hBE]
        constructor
        · intro hc
          simp at hc
        · intro hc
          injection hc with hc
          exact absurd hc hLE

theorem bomLe_false_iff {buf : Buffer} :
    bomLe buf = some false ↔ getU16 false buf 0 = .ok 0x4D4D := by
  unfold bomLe
  cases hb : getU16 false buf 0 with
  | error e => simp
  | ok bom =>
    dsimp only
    by_cases hLE : bom = TIFF_LITTLE_ENDIAN
    · subst hLE
      simp [TIFF_LITTLE_ENDIAN, TIFF_BIG_ENDIAN]
    · rw [if_neg hLE]
      by_cases hBE : bom = TIFF_BIG_ENDIAN
      · subst hBE
        simp [TIFF_BIG_ENDIAN]
      · rw [if_neg hBE]
        constructor
        · intro hc
          simp at hc
        · intro hc
          injection hc with hc
          exact absurd hc hBE

theorem parseHeader_ok {c : Ctx} {s t : TiffState} (h : parseHeader c s = .ok t) :
    bomLe c.buf = some t.le ∧ getU16 t.le c.buf 2 = .ok 0x2A ∧ t = {s with le := t.le} := by
  unfold parseHeader at h
  split at h
  · exact absurd h (by simp)
  · next bom heq =>
    split_ifs at h with hLE hBE
    · unfold headerMagic at h
      split at h
      · exact absurd h (by simp)
      · next m heqm =>
        split at h
        · next hm =>
          injection h with h
          subst hm
          have hle : t.le = true := by rw [← h]
          have h49 : getU16 false c.buf 0 = .ok 0x4949 := by rw [heq, hLE]; rfl
          refine ⟨?_, ?_, ?_⟩
          · rw [hle]
            exact bomLe_true_iff.mpr h49
          · rw [hle]
            exact heqm
          · rw [hle, ← h]
        · exact absurd h (by simp)
    · unfold headerMagic at h
      split at h
      · exact absurd h (by simp)
      · next m heqm =>
        split at h
        · next hm =>
          injection h with h
          subst hm
          have hle : t.le = false := by rw [← h]
          have h4D : getU16 false c.buf 0 = .ok 0x4D4D := by rw [heq, hBE]; rfl
          refine ⟨?_, ?_, ?_⟩
          · rw [hle]
            exact bomLe_false_iff.mpr h4D
          · rw [hle]
            exact heqm
          · rw [hle, ← h]
        · exact absurd h (by simp)

theorem parseHeader_malformed {c : Ctx} {s : TiffState}
    (h : parseHeader c s = .error .malformedHeader) :
    bomLe c.buf = none ∨
      ∃ le m, bomLe c.buf = some le ∧ getU16 le c.buf 2 = .ok m ∧ m ≠ 0x2A := by
  unfold parseHeader at h
  split at h
  · injection h with h
    next heq => exact absurd (getUN_error heq) (by rw [h]; decide)
  · next bom heq =>
    split_ifs at h with hLE hBE
    · unfold headerMagic at h
      split at h
      · injection h with h
        next heqm => exact absurd (getUN_error heqm) (by rw [h]; decide)
      · next m heqm =>
        split at h
        · exact absurd h (by simp)
        · next hm =>
          have h49 : getU16 false c.buf 0 = .ok 0x4949 := by rw [heq, hLE]; rfl
          exact Or.inr ⟨true, m, bomLe_true_iff.mpr h49, heqm, hm⟩
    · unfold headerMagic at h
      split at h
      · injection h with h
        next heqm => exact absurd (getUN_error heqm) (by rw [h]; decide)
      · next m heqm =>
        split at h
        · exact absurd h (by simp)
        · next hm =>
          have h4D : getU16 false c.buf 0 = .ok 0x4D4D := by rw [heq, hBE]; rfl
          exact Or.inr ⟨false, m, bomLe_false_iff.mpr h4D, heqm, hm⟩
    · refine Or.inl ?_
      unfold bomLe
      rw [heq]
      dsimp only
      rw [if_neg hLE, if_neg hBE]

theorem parseHeader_bad_bom {c : Ctx} {s : TiffState} {bom : Nat}
    (heq : getU16 false c.buf 0 = .ok bom) (h1 : bom ≠ 0x4949) (h2 : bom ≠ 0x4D4D) :
    parseHeader c s = .error .malformedHeader := by
  unfold parseHeader
  rw [heq]
  dsimp only
  rw [if_neg (by simpa [TIFF_LITTLE_ENDIAN] using h1),
      if_neg (by simpa [TIFF_BIG_ENDIAN] using h2)]

theorem parseHeader_bad_magic {c : Ctx} {s : TiffState} {le : Bool} {m : Nat}
    (hbom : bomLe c.buf = some le) (hm : getU16 le c.buf 2 = .ok m) (hne : m ≠ 0x2A) :
    parseHeader c s = .error .malformedHeader := by
  unfold bomLe at hbom
  unfold parseHeader
  cases hb : getU16 false c.buf 0 with
  | error e => rw [hb] at hbom; exact absurd hbom (by simp)
  | ok bom =>
    rw [hb] at hbom
    dsimp only at hbom
    dsimp only
    split_ifs at hbom with hLE hBE
    · injection hbom with hbom
      rw [if_pos hLE]
      unfold headerMagic
      rw [← hbom] at hm
      rw [hm]
      dsimp only
      rw [if_neg hne]
    · injection hbom with hbom
      rw [if_neg hLE, if_pos hBE]
      unfold headerMagic
      rw [← hbom] at hm
      rw [hm]
      dsimp only
      rw [if_neg hne]

theorem parseIfd0Block_low_offset {c : Ctx} {s : TiffState} {o : Nat}
    (hifd : s.ifd0 = none) (hg : getU32 s.le c.buf 4 = .ok o) (hlt : o < 8) :
    parseIfd0Block c s = .error .malformedHeader := by
  unfold parseIfd0Block
  rw [if_neg (by simp [hifd]), hg]
  dsimp only
  rw [if_pos hlt]

theorem parseIfd0Block_malformed {c : Ctx} {s : TiffState}
    (h : parseIfd0Block c s = .error .malformedHeader) :
    s.ifd0 = none ∧ ∃ o, getU32 s.le c.buf 4 = .ok o ∧ o < 8 := by
  unfold parseIfd0Block at h
  split at h
  · exact absurd h (by simp)
  · next hguard =>
    have hnone : s.ifd0 = none := Option.not_isSome_iff_eq_none.mp (by simpa using hguard)
    refine ⟨hnone, ?_⟩
    split at h
    · injection h with h
      next heq => exact absurd (getUN_error heq) (by rw [h]; decide)
    · next o heq =>
      split at h
      · next hlt => exact ⟨o, heq, hlt⟩
      · split at h
        · injection h with h
          next heqt =>
            rcases parseTags_error heqt with hh | hh <;>
              exact absurd (h ▸ hh) (by decide)
        · split at h
          · exact absurd h (by simp)
          · exact absurd h (by simp)

theorem readBytes_ok_length {buf : Buffer} {off n : Nat} {bs : List Nat}
    (h : readBytes buf off n = .ok bs) : bs.length = n := by
  unfold readBytes at h
  split at h
  · next hle =>
    injection h with h
    subst h
    simp only [List.length_map, List.length_take, List.length_drop]
    omega
  · exact absurd h (by simp)

theorem parseTags_oob {le : Bool} {buf : Buffer} {pick skip : List Nat} {p : Nat}
    (h : buf.length < p) : parseTags le buf pick skip p = .error .offsetOutOfBounds := by
  unfold parseTags
  rw [getU16_oob h]

/-- The value location `parseTag` resolves for an entry: the inline slot
`offset + 8` when the recognized width times the count is at most 4, and
the 32-bit value stored in that slot otherwise. -/
theorem parseTag_resolution {le : Bool} {buf : Buffer} {off typ cnt : Nat}
    (h1 : getU16 le buf (off + 2) = .ok typ) (h2 : getU32 le buf (off + 4) = .ok cnt) :
    (∀ w, SIZE_LOOKUP typ = some w → w * cnt ≤ 4 →
       parseTag le buf off = parseTagPayload le buf typ cnt (off + 8)) ∧
    (∀ w ptr, SIZE_LOOKUP typ = some w → 4 < w * cnt → getU32 le buf (off + 8) = .ok ptr →
       parseTag le buf off = parseTagPayload le buf typ cnt ptr) ∧
    (∀ ptr, SIZE_LOOKUP typ = none → getU32 le buf (off + 8) = .ok ptr →
       parseTag le buf off = parseTagPayload le buf typ cnt ptr) := by
  refine ⟨?_, ?_, ?_⟩
  · intro w h3 h4
    unfold parseTag
    rw [h1]
    dsimp only
    rw [h2]
    dsimp only
    rw [h3]
    dsimp only
    rw [if_pos h4]
  · intro w ptr h3 h4 h5
    unfold parseTag
    rw [h1]
    dsimp only
    rw [h2]
    dsimp only
    rw [h3]
    dsimp only
    rw [if_neg (by omega), h5]
  · intro ptr h3 h5
    unfold parseTag
    rw [h1]
    dsimp only
    rw [h2]
    dsimp only
    rw [h3]
    dsimp only
    rw [h5]

/-- C2: an entry with a recognized type code decodes from the inline
4-byte slot at `entry+8` itself when `width * count ≤ 4` — the slot is
never dereferenced as an offset — and otherwise from the byte offset
stored in that slot, where `count` values of `width` bytes each are read
contiguously. -/
theorem c2_inline_vs_offset :
    (∀ le buf off typ cnt w,
       getU16 le buf (off + 2) = .ok typ →
       getU32 le buf (off + 4) = .ok cnt →
       SIZE_LOOKUP typ = some w →
       w * cnt ≤ 4 →
       parseTag le buf off = parseTagPayload le buf typ cnt (off + 8)) ∧
    (∀ le buf off typ cnt w ptr,
       getU16 le buf (off + 2) = .ok typ →
       getU32 le buf (off + 4) = .ok cnt →
       SIZE_LOOKUP typ = some w →
       4 < w * cnt →
       getU32 le buf (off + 8) = .ok ptr →
       parseTag le buf off = parseTagPayload le buf typ cnt ptr) ∧
    (∀ le buf typ cnt w vOff,
       SIZE_LOOKUP typ = some w →
       typ ≠ 2 → typ ≠ 7 → cnt ≠ 1 → vOff ≤ buf.length →
       parseTagPayload le buf typ cnt vOff =
         ((List.range cnt).mapM (fun i => parseTagValue le buf typ (vOff + i * w))).map .arr) := by
  refine ⟨?_, ?_, ?_⟩
  · intro le buf off typ cnt w h1 h2 h3 h4
    exact (parseTag_resolution h1 h2).1 w h3 h4
  · intro le buf off typ cnt w ptr h1 h2 h3 h4 h5
    exact (parseTag_resolution h1 h2).2.1 w ptr h3 h4 h5
  · intro le buf typ cnt w vOff h3 h2 h7 hc hlen
    unfold parseTagPayload
    rw [if_neg (by omega), if_neg h2, if_neg h7, if_neg hc, h3]
    rfl

/-- C2 witness: a SHORT entry whose inline slot bytes `0xFFFF`, misread as
an offset, would point far outside the 12-byte buffer, still decodes from
the inline slot; a LONG entry with count 2 decodes through its offset slot. -/
theorem c2_witness :
    parseTag true bufInlineEntry 0 = parseTagPayload true bufInlineEntry 3 1 8 ∧
    parseTag true bufOutOfLineEntry 0 = parseTagPayload true bufOutOfLineEntry 4 2 12 ∧
    parseTag true bufInlineEntry 0 = .ok (.num (.int 65535)) := by
  refine ⟨?_, ?_, by decide⟩
  · exact c2_inline_vs_offset.1 true bufInlineEntry 0 3 1 2 (by decide) (by decide)
      (by decide) (by decide)
  · exact c2_inline_vs_offset.2.1 true bufOutOfLineEntry 0 4 2 4 12 (by decide) (by decide)
      (by decide) (by decide) (by decide)

/-- C3 counterexample: the entry at offset 0 carries the unrecognized type
code 14, yet `parseTag` does not fail with `UnknownFieldType` — with count
0 it succeeds and returns an empty array. -/
theorem c3_counterexample :
    getU16 true bufTypeFourteenCountZero 2 = .ok 14 ∧
    SIZE_LOOKUP 14 = none ∧
    parseTag true bufTypeFourteenCountZero 0 = .ok (.arr []) := by
  refine ⟨by decide, by decide, by decide⟩

/-- C3 (amended): an entry with a type code outside 1-13 is treated as
out-of-line (the unknown width makes the inline test false), so the 32-bit
slot at `entry+8` is read as an offset and bounds-checked first: an
out-of-range offset fails with `OffsetOutOfBounds`; otherwise decoding
fails with `UnknownFieldType` in the scalar decoder when `count ≥ 1`, and
returns an empty array without error when `count = 0`. -/
theorem c3_unknown_type_amended :
    ∀ le buf off typ cnt ptr,
      getU16 le buf (off + 2) = .ok typ →
      SIZE_LOOKUP typ = none →
      getU32 le buf (off + 4) = .ok cnt →
      getU32 le buf (off + 8) = .ok ptr →
      (buf.length < ptr → parseTag le buf off = .error .offsetOutOfBounds) ∧
      (ptr ≤ buf.length → cnt = 0 → parseTag le buf off = .ok (.arr [])) ∧
      (ptr ≤ buf.length → 0 < cnt → parseTag le buf off = .error .unknownFieldType) := by
  intro le buf off typ cnt ptr h1 hsz h2 h3
  have hres := (parseTag_resolution h1 h2).2.2 ptr hsz h3
  have hne := SIZE_LOOKUP_none_ne hsz
  refine ⟨?_, ?_, ?_⟩
  · intro hoob
    rw [hres]
    unfold parseTagPayload
    rw [if_pos hoob]
  · intro hle hc
    subst hc
    rw [hres]
    unfold parseTagPayload
    rw [if_neg (by omega), if_neg hne.1, if_neg hne.2, if_neg (by omega)]
    rfl
  · intro hle hc
    rw [hres]
    unfold parseTagPayload
    rw [if_neg (by omega), if_neg hne.1, if_neg hne.2]
    by_cases hc1 : cnt = 1
    · rw [if_pos hc1, SIZE_LOOKUP_none_parseTagValue hsz]
      rfl
    · rw [if_neg hc1]
      obtain ⟨cnt', rfl⟩ : ∃ k, cnt = k + 1 := ⟨cnt - 1, by omega⟩
      rw [List.range_succ_eq_map, List.mapM_cons, SIZE_LOOKUP_none_parseTagValue hsz]
      rfl

/-- C3 witness for the amended claim: all three behaviors at concrete
single-entry buffers with type code 14. -/
theorem c3_witness :
    parseTag true bufTypeFourteenOOB 0 = .error .offsetOutOfBounds ∧
    parseTag true bufTypeFourteenCountZero 0 = .ok (.arr []) ∧
    parseTag true bufTypeFourteenCountOne 0 = .error .unknownFieldType := by
  refine ⟨?_, ?_, ?_⟩
  · exact (c3_unknown_type_amended true bufTypeFourteenOOB 0 14 1 65535 (by decide) (by decide)
      (by decide) (by decide)).1 (by decide)
  · exact (c3_unknown_type_amended true bufTypeFourteenCountZero 0 14 0 4 (by decide) (by decide)
      (by decide) (by decide)).2.1 (by decide) rfl
  · exact (c3_unknown_type_amended true bufTypeFourteenCountOne 0 14 1 4 (by decide) (by decide)
      (by decide) (by decide)).2.2 (by decide) (by decide)

/-- C5: a RATIONAL (type 5) scalar reads two unsigned 32-bit integers at
the value offset and at `offset+4` and yields their quotient — the exact
finite quotient for a nonzero denominator, and a non-finite value without
throwing for a zero denominator; SRATIONAL (type 10) does the same with
signed 32-bit reads. -/
theorem c5_rational_division :
    (∀ le buf off n d,
       getU32 le buf off = .ok n →
       getU32 le buf (off + 4) = .ok d →
       parseTagValue le buf 5 off = .ok (jsDivU n d) ∧
       (d ≠ 0 → jsDivU n d = .fin ((n : Rat) / (d : Rat))) ∧
       (d = 0 → (jsDivU n d).nonFinite = true)) ∧
    (∀ le buf off n d,
       getI32 le buf off = .ok n →
       getI32 le buf (off + 4) = .ok d →
       parseTagValue le buf 10 off = .ok (jsDivI n d) ∧
       (d ≠ 0 → jsDivI n d = .fin ((n : Rat) / (d : Rat))) ∧
       (d = 0 → (jsDivI n d).nonFinite = true)) := by
  constructor
  · intro le buf off n d h1 h2
    refine ⟨?_, ?_, ?_⟩
    · unfold parseTagValue
      rw [if_neg (by omega), if_neg (by omega), if_neg (by omega), if_pos rfl, h1]
      dsimp only
      rw [h2]
    · intro hd
      unfold jsDivU
      rw [if_neg (by omega)]
    · intro hd
      subst hd
      unfold jsDivU
      rw [if_pos rfl]
      by_cases hn : n = 0
      · rw [if_pos hn]; rfl
      · rw [if_neg hn]; rfl
  · intro le buf off n d h1 h2
    refine ⟨?_, ?_, ?_⟩
    · unfold parseTagValue
      rw [if_neg (by omega), if_neg (by omega), if_neg (by omega), if_neg (by omega),
          if_neg (by omega), if_neg (by omega), if_neg (by omega), if_pos rfl, h1]
      dsimp only
      rw [h2]
    · intro hd
      unfold jsDivI
      rw [if_neg hd]
    · intro hd
      subst hd
      unfold jsDivI
      rw [if_pos rfl]
      by_cases hn : n = 0
      · rw [if_pos hn]; rfl
      · rw [if_neg hn]
        by_cases hp : 0 < n
        · rw [if_pos hp]; rfl
        · rw [if_neg hp]; rfl

/-- C5 witness: `6/3` decodes to the finite quotient 2, `1/0` to a
non-finite value, and the SRATIONAL `-1/2` to the exact quotient. -/
theorem c5_witness :
    parseTagValue true bufRatio 5 0 = .ok (jsDivU 6 3) ∧
    (jsDivU 1 0).nonFinite = true ∧
    parseTagValue true bufSRatio 10 0 = .ok (jsDivI (-1) 2) ∧
    jsDivI (-1) 2 = .fin ((-1 : Rat) / (2 : Rat)) := by
  refine ⟨?_, ?_, ?_, ?_⟩
  · exact (c5_rational_division.1 true bufRatio 0 6 3 (by decide) (by decide)).1
  · exact (c5_rational_division.1 true bufRatioZero 0 1 0 (by decide) (by decide)).2.2 rfl
  · exact (c5_rational_division.2 true bufSRatio 0 (-1) 2 (by decide) (by decide)).1
  · exact (c5_rational_division.2 true bufSRatio 0 (-1) 2 (by decide) (by decide)).2.1 (by decide)

/-- C1: an entry whose value is out-of-line (`width * count > 4`) fails
with `OffsetOutOfBounds` before any dereference when the 32-bit offset in
its slot exceeds the buffer length; and the thumbnail decoder fails the
same way when the resolved IFD1 pointer is out of range of the buffer. -/
theorem c1_offset_out_of_bounds :
    (∀ le buf off typ cnt w ptr,
       getU16 le buf (off + 2) = .ok typ →
       getU32 le buf (off + 4) = .ok cnt →
       SIZE_LOOKUP typ = some w →
       4 < w * cnt →
       getU32 le buf (off + 8) = .ok ptr →
       buf.length < ptr →
       parseTag le buf off = .error .offsetOutOfBounds) ∧
    (∀ c s force io n p,
       s.thumbnail = none →
       s.thumbnailParsed = false →
       (c.opts.mergeOutput = false ∨ force = true) →
       s.ifd0Offset = some io →
       getU16 s.le c.buf io = .ok n →
       getU32 s.le c.buf (io + 2 + n * 12) = .ok p →
       c.buf.length < p →
       parseThumbnailBlock c force s = .error .offsetOutOfBounds) := by
  constructor
  · intro le buf off typ cnt w ptr h1 h2 h3 h4 h5 h6
    rw [(parseTag_resolution h1 h2).2.1 w ptr h3 h4 h5]
    unfold parseTagPayload
    rw [if_pos h6]
  · intro c s force io n p hth hpar hmf hio hn hp hoob
    unfold parseThumbnailBlock
    rw [if_neg (by simp [hth, hpar])]
    have hguard : (c.opts.mergeOutput && !force) = false := by
      rcases hmf with hm | hf
      · simp [hm]
      · simp [hf]
    rw [if_neg (by simp [hguard])]
    rw [hio]
    dsimp only
    rw [hn]
    dsimp only
    rw [hp]
    dsimp only
    rw [if_neg (by omega), parseTags_oob hoob]

/-- C1 witness: a LONG count-2 entry with offset slot `0xFFFF` in a
12-byte buffer, and a thumbnail pointer `0xFFFF` in a 26-byte buffer. -/
theorem c1_witness :
    parseTag true bufOutOfLineOOB 0 = .error .offsetOutOfBounds ∧
    parseThumbnailBlock (mkCtx bufThumbOOB {thumbnail := true})
      false {initState with le := true, ifd0Offset := some 8} =
        .error .offsetOutOfBounds := by
  constructor
  · exact c1_offset_out_of_bounds.1 true bufOutOfLineOOB 0 4 2 4 65535 (by decide) (by decide)
     (by decide) (by decide) (by decide) (by decide)
  · exact c1_offset_out_of_bounds.2 (mkCtx bufThumbOOB {thumbnail := true})
      {initState with le := true, ifd0Offset := some 8} false 8 1 65535 rfl rfl
      (Or.inl rfl) rfl (by decide) (by decide) (by decide)

/-- C8: an ASCII (type 2) entry decodes to a single string — never an
array, whatever the count — built from `count` read bytes with every
trailing NUL removed; `stripTrailingNulls` removes all trailing NULs (an
appended run of NULs of any length changes nothing, and the result never
ends in NUL). -/
theorem c8_ascii_strings :
    (∀ le buf off cnt v,
       getU16 le buf (off + 2) = .ok 2 →
       getU32 le buf (off + 4) = .ok cnt →
       parseTag le buf off = .ok v →
       ∃ vOff raw, readBytes buf vOff cnt = .ok raw ∧ raw.length = cnt ∧
         v = .str (stripTrailingNulls raw)) ∧
    (∀ l k, stripTrailingNulls (l ++ List.replicate k 0) = stripTrailingNulls l) ∧
    (∀ l, (stripTrailingNulls l).getLast? ≠ some 0) := by
  refine ⟨?_, stripTrailingNulls_append_replicate, stripTrailingNulls_getLast⟩
  intro le buf off cnt v h1 h2 hp
  have hascii : ∀ vOff, parseTagPayload le buf 2 cnt vOff = .ok v →
      ∃ raw, readBytes buf vOff cnt = .ok raw ∧ raw.length = cnt ∧
        v = .str (stripTrailingNulls raw) := by
    intro vOff hpay
    unfold parseTagPayload at hpay
    split at hpay
    · exact absurd hpay (by simp)
    · rw [if_pos rfl] at hpay
      cases hr : readBytes buf vOff cnt with
      | error e => rw [hr] at hpay; exact absurd hpay (by simp [Except.map])
      | ok raw =>
        rw [hr] at hpay
        simp only [Except.map] at hpay
        injection hpay with hpay
        exact ⟨raw, rfl, readBytes_ok_length hr, hpay.symm⟩
  by_cases hc : 1 * cnt ≤ 4
  · rw [(parseTag_resolution h1 h2).1 1 (by decide) hc] at hp
    rcases hascii _ hp with ⟨raw, hr, hlen, hv⟩
    exact ⟨off + 8, raw, hr, hlen, hv⟩
  · unfold parseTag at hp
    rw [h1] at hp
    dsimp only at hp
    rw [h2] at hp
    dsimp only at hp
    rw [show SIZE_LOOKUP 2 = some 1 from rfl] at hp
    dsimp only at hp
    rw [if_neg hc] at hp
    cases h3 : getU32 le buf (off + 8) with
    | error e => rw [h3] at hp; exact absurd hp (by simp)
    | ok ptr =>
      rw [h3] at hp
      dsimp only at hp
      rcases hascii _ hp with ⟨raw, hr, hlen, hv⟩
      exact ⟨ptr, raw, hr, hlen, hv⟩

/-- C8 witness: the inline ASCII entry `"AB\x00\x00"` (count 4) decodes to
the two-character string with both trailing NULs stripped. -/
theorem c8_witness :
    (∃ vOff raw, readBytes bufAscii vOff 4 = .ok raw ∧ raw.length = 4 ∧
       JSVal.str [65, 66] = .str (stripTrailingNulls raw)) ∧
    stripTrailingNulls ([65] ++ List.replicate 2 0) = stripTrailingNulls [65] ∧
    (stripTrailingNulls [65, 0, 0]).getLast? ≠ some 0 := by
  refine ⟨?_, c8_ascii_strings.2.1 [65] 2, c8_ascii_strings.2.2 [65, 0, 0]⟩
  exact c8_ascii_strings.1 true bufAscii 0 4 (.str [65, 66]) (by decide) (by decide) (by decide)

/-- C7: every block-parsing operation is idempotent — once its block is
populated (for the thumbnail, also once the parsed flag is set), invoking
it again returns the state completely unchanged. -/
theorem c7_block_idempotence :
    ∀ c s,
      (s.ifd0.isSome → parseIfd0Block c s = .ok s) ∧
      (s.exif.isSome → parseExifBlock c s = .ok s) ∧
      (s.gps.isSome → parseGpsBlock c s = .ok s) ∧
      (s.interop.isSome → parseInteropBlock c s = .ok s) ∧
      (∀ force, s.thumbnail.isSome ∨ s.thumbnailParsed = true →
         parseThumbnailBlock c force s = .ok (s, none)) := by
  intro c s
  refine ⟨?_, ?_, ?_, ?_, ?_⟩
  · intro h
    unfold parseIfd0Block
    rw [if_pos h]
  · intro h
    unfold parseExifBlock
    rw [if_pos h]
  · intro h
    unfold parseGpsBlock
    rw [if_pos h]
  · intro h
    unfold parseInteropBlock
    rw [if_pos h]
  · intro force h
    unfold parseThumbnailBlock
    rw [if_pos (by rcases h with h | h <;> simp [h])]

/-- C7 witness: a state with all five blocks populated is returned
untouched by each of the five operations. -/
theorem c7_witness :
    parseIfd0Block (mkCtx bufLE {}) c7State = .ok c7State ∧
    parseExifBlock (mkCtx bufLE {}) c7State = .ok c7State ∧
    parseGpsBlock (mkCtx bufLE {}) c7State = .ok c7State ∧
    parseInteropBlock (mkCtx bufLE {}) c7State = .ok c7State ∧
    parseThumbnailBlock (mkCtx bufLE {}) true c7State = .ok (c7State, none) := by
  refine ⟨?_, ?_, ?_, ?_, ?_⟩
  · exact (c7_block_idempotence (mkCtx bufLE {}) c7State).1 rfl
  · exact (c7_block_idempotence (mkCtx bufLE {}) c7State).2.1 rfl
  · exact (c7_block_idempotence (mkCtx bufLE {}) c7State).2.2.1 rfl
  · exact (c7_block_idempotence (mkCtx bufLE {}) c7State).2.2.2.1 rfl
  · exact (c7_block_idempotence (mkCtx bufLE {}) c7State).2.2.2.2 true (Or.inl rfl)

/-- C9: when IFD0 decodes to a nonempty map, exactly the EXIF, Interop and
GPS pointer tags are removed from the emitted `ifd0` map under
`sanitize=true` — after their values have been captured as the block
offsets — every other tag is unchanged, and with `sanitize=false` nothing
is removed. -/
theorem c9_sanitize :
    ∀ c s o m,
      s.ifd0 = none →
      getU32 s.le c.buf 4 = .ok o →
      8 ≤ o →
      parseTags s.le c.buf c.opts.pickTags c.opts.skipTags o = .ok m →
      m.isEmpty = false →
      (c.opts.sanitize = true →
        parseIfd0Block c s = .ok {s with
          ifd0Offset := some o,
          ifd0 := some (sanitizeIfd0 m),
          exifOffset := objGet m (natKey TAG_IFD_EXIF),
          interopOffset := objGet m (natKey TAG_IFD_INTEROP),
          gpsOffset := objGet m (natKey TAG_IFD_GPS)} ∧
        objGet (sanitizeIfd0 m) (natKey TAG_IFD_EXIF) = none ∧
        objGet (sanitizeIfd0 m) (natKey TAG_IFD_INTEROP) = none ∧
        objGet (sanitizeIfd0 m) (natKey TAG_IFD_GPS) = none ∧
        (∀ k, k ≠ natKey TAG_IFD_EXIF → k ≠ natKey TAG_IFD_INTEROP →
           k ≠ natKey TAG_IFD_GPS → objGet (sanitizeIfd0 m) k = objGet m k)) ∧
      (c.opts.sanitize = false →
        parseIfd0Block c s = .ok {s with
          ifd0Offset := some o,
          ifd0 := some m,
          exifOffset := objGet m (natKey TAG_IFD_EXIF),
          interopOffset := objGet m (natKey TAG_IFD_INTEROP),
          gpsOffset := objGet m (natKey TAG_IFD_GPS)}) := by
  intro c s o m h0 hg h8 hpt hne
  have hrun : parseIfd0Block c s = .ok {s with
      ifd0Offset := some o,
      ifd0 := some (if c.opts.sanitize then sanitizeIfd0 m else m),
      exifOffset := objGet m (natKey TAG_IFD_EXIF),
      interopOffset := objGet m (natKey TAG_IFD_INTEROP),
      gpsOffset := objGet m (natKey TAG_IFD_GPS)} := by
    unfold parseIfd0Block
    rw [if_neg (by simp [h0]), hg]
    dsimp only
    rw [if_neg (by omega), hpt]
    dsimp only
    rw [if_neg (by simp [hne])]
  have hEG : natKey TAG_IFD_EXIF ≠ natKey TAG_IFD_GPS := by decide
  have hEI : natKey TAG_IFD_EXIF ≠ natKey TAG_IFD_INTEROP := by decide
  have hIG : natKey TAG_IFD_INTEROP ≠ natKey TAG_IFD_GPS := by decide
  constructor
  · intro hs
    refine ⟨by rw [hrun]; simp [hs], ?_, ?_, ?_, ?_⟩
    · unfold sanitizeIfd0
      rw [objGet_objDel, if_neg hEG, objGet_objDel, if_neg hEI, objGet_objDel, if_pos rfl]
    · unfold sanitizeIfd0
      rw [objGet_objDel, if_neg hIG, objGet_objDel, if_pos rfl]
    · unfold sanitizeIfd0
      rw [objGet_objDel, if_pos rfl]
    · intro k hkE hkI hkG
      unfold sanitizeIfd0
      rw [objGet_objDel, if_neg hkG, objGet_objDel, if_neg hkI, objGet_objDel, if_neg hkE]
  · intro hs
    rw [hrun]
    simp [hs]

/-- C9 witness: an IFD0 with a width tag and the EXIF pointer tag; with
sanitization the pointer tag disappears from the emitted map while the
width tag survives, and without sanitization the map is untouched. -/
theorem c9_witness :
    parseIfd0Block (mkCtx bufWithExifPointer {sanitize := true}) {initState with le := true} =
      .ok {initState with
        le := true,
        ifd0Offset := some 8,
        ifd0 := some (sanitizeIfd0
          [("256", .num (.int 640)), ("34665", .num (.int 100))]),
        exifOffset := some (.num (.int 100)),
        interopOffset := none,
        gpsOffset := none} ∧
    parseIfd0Block (mkCtx bufWithExifPointer {}) {initState with le := true} =
      .ok {initState with
        le := true,
        ifd0Offset := some 8,
        ifd0 := some [("256", .num (.int 640)), ("34665", .num (.int 100))],
        exifOffset := some (.num (.int 100)),
        interopOffset := none,
        gpsOffset := none} ∧
    sanitizeIfd0 [("256", JSVal.num (JSNum.int 640)), ("34665", JSVal.num (JSNum.int 100))] =
      [("256", .num (.int 640))] := by
  refine ⟨?_, ?_, by decide⟩
  · exact ((c9_sanitize (mkCtx bufWithExifPointer {sanitize := true}) {initState with le := true}
      8 [("256", .num (.int 640)), ("34665", .num (.int 100))]
      rfl (by decide) (by decide) (by decide) (by decide)).1 rfl).1
  · exact (c9_sanitize (mkCtx bufWithExifPointer {}) {initState with le := true}
      8 [("256", .num (.int 640)), ("34665", .num (.int 100))]
      rfl (by decide) (by decide) (by decide) (by decide)).2 rfl

/-- C10: with the Interop block undecoded and the IFD0-derived Interop
offset missing or 0 (falsy), `parseInteropBlock` falls back to the Interop
pointer tag inside the decoded `exif` block: it decodes nothing when the
fallback is undefined (so a 0-valued IFD0 pointer is never dereferenced),
and decodes at the EXIF-provided pointer when that tag exists. -/
theorem c10_interop_fallback :
    ∀ c s,
      s.interop = none →
      (s.interopOffset = none ∨ s.interopOffset = some (.num (.int 0))) →
      (s.exif = none → parseInteropBlock c s = .ok {s with interopOffset := none}) ∧
      (∀ ex, s.exif = some ex → objGet ex (natKey TAG_IFD_INTEROP) = none →
         parseInteropBlock c s = .ok {s with interopOffset := none}) ∧
      (∀ ex v off m, s.exif = some ex → objGet ex (natKey TAG_IFD_INTEROP) = some v →
         jsOffset v = .ok off →
         parseTags s.le c.buf c.opts.pickTags c.opts.skipTags off = .ok m →
         parseInteropBlock c s = .ok {s with interopOffset := some v, interop := some m}) := by
  intro c s hint hfalsy0
  have hfalsy : truthyOpt s.interopOffset = false := by
    rcases hfalsy0 with h | h <;> rw [h] <;> rfl
  refine ⟨?_, ?_, ?_⟩
  · intro hex
    unfold parseInteropBlock
    rw [if_neg (by simp [hint])]
    dsimp only
    rw [if_neg (by simp [hfalsy]), hex]
  · intro ex hex hobj
    unfold parseInteropBlock
    rw [if_neg (by simp [hint])]
    dsimp only
    rw [if_neg (by simp [hfalsy]), hex]
    dsimp only
    rw [hobj]
  · intro ex v off m hex hobj hjs hpt
    unfold parseInteropBlock
    rw [if_neg (by simp [hint])]
    dsimp only
    rw [if_neg (by simp [hfalsy]), hex]
    dsimp only
    rw [hobj]
    dsimp only
    rw [hjs]
    dsimp only
    rw [hpt]

/-- C10 witness: with an IFD0 Interop offset of 0 the block is not decoded
when no EXIF fallback exists, and is decoded at the EXIF pointer tag's
offset (8) when the decoded `exif` block provides one. -/
theorem c10_witness :
    parseInteropBlock (mkCtx bufLE {}) {initState with
        le := true,
        interopOffset := some (.num (.int 0))} =
      .ok {initState with le := true, interopOffset := none} ∧
    parseInteropBlock (mkCtx bufLE {}) {initState with
        le := true,
        interopOffset := some (.num (.int 0)), exif := some []} =
      .ok {initState with le := true, interopOffset := none, exif := some []} ∧
    parseInteropBlock (mkCtx bufLE {}) {initState with
        le := true,
        interopOffset := some (.num (.int 0)),
        exif := some [("40965", .num (.int 8))]} =
      .ok {initState with
        le := true,
        interopOffset := some (.num (.int 8)),
        exif := some [("40965", .num (.int 8))],
        interop := some [("256", .num (.int 640))]} := by
  refine ⟨?_, ?_, ?_⟩
  · exact (c10_interop_fallback (mkCtx bufLE {}) _ rfl (Or.inr rfl)).1 rfl
  · exact (c10_interop_fallback (mkCtx bufLE {}) _ rfl (Or.inr rfl)).2.1 [] rfl rfl
  · exact (c10_interop_fallback (mkCtx bufLE {}) _ rfl (Or.inr rfl)).2.2
      [("40965", .num (.int 8))] (.num (.int 8)) 8 [("256", .num (.int 640))]
      rfl (by decide) rfl (by decide)

/-- C4: header validation selects little-endian exactly for marker
`0x4949` and big-endian exactly for `0x4D4D`, failing with
`MalformedHeader` otherwise; it fails the same way when the word at
offset 2 is not `0x002A`; IFD0 decoding fails with `MalformedHeader` when
the 32-bit IFD0 offset at offset 4 is below 8; and no other condition in
the whole parse produces `MalformedHeader`. -/
theorem c4_malformed_header :
    (∀ c s t, parseHeader c s = .ok t →
       bomLe c.buf = some t.le ∧
       (t.le = true ↔ getU16 false c.buf 0 = .ok 0x4949) ∧
       (t.le = false ↔ getU16 false c.buf 0 = .ok 0x4D4D) ∧
       getU16 t.le c.buf 2 = .ok 0x2A) ∧
    (∀ c s bom, getU16 false c.buf 0 = .ok bom → bom ≠ 0x4949 → bom ≠ 0x4D4D →
       parseHeader c s = .error .malformedHeader) ∧
    (∀ c s le m, bomLe c.buf = some le → getU16 le c.buf 2 = .ok m → m ≠ 0x2A →
       parseHeader c s = .error .malformedHeader) ∧
    (∀ c s o, s.ifd0 = none → getU32 s.le c.buf 4 = .ok o → o < 8 →
       parseIfd0Block c s = .error .malformedHeader) ∧
    (∀ c s, parse c s = .error .malformedHeader →
       bomLe c.buf = none ∨
       (∃ le m, bomLe c.buf = some le ∧ getU16 le c.buf 2 = .ok m ∧ m ≠ 0x2A) ∨
       (∃ le o, bomLe c.buf = some le ∧ getU16 le c.buf 2 = .ok 0x2A ∧ s.ifd0 = none ∧
          getU32 le c.buf 4 = .ok o ∧ o < 8)) := by
  refine ⟨?_, ?_, ?_, ?_, ?_⟩
  · intro c s t h
    obtain ⟨hbom, hmagic, hts⟩ := parseHeader_ok h
    refine ⟨hbom, ?_, ?_, hmagic⟩
    · cases hle : t.le with
      | true =>
        rw [hle] at hbom
        have h49 := bomLe_true_iff.mp hbom
        exact ⟨fun _ => h49, fun _ => rfl⟩
      | false =>
        rw [hle] at hbom
        have h4D := bomLe_false_iff.mp hbom
        constructor
        · intro hc
          exact absurd hc (by simp)
        · intro h49
          have := h4D.symm.trans h49
          injection this with this
          exact absurd this (by decide)
    · cases hle : t.le with
      | false =>
        rw [hle] at hbom
        have h4D := bomLe_false_iff.mp hbom
        exact ⟨fun _ => h4D, fun _ => rfl⟩
      | true =>
        rw [hle] at hbom
        have h49 := bomLe_true_iff.mp hbom
        constructor
        · intro hc
          exact absurd hc (by simp)
        · intro h4D
          have := h49.symm.trans h4D
          injection this with this
          exact absurd this (by decide)
  · intro c s bom h1 h2 h3
    exact parseHeader_bad_bom h1 h2 h3
  · intro c s le m h1 h2 h3
    exact parseHeader_bad_magic h1 h2 h3
  · intro c s o h1 h2 h3
    exact parseIfd0Block_low_offset h1 h2 h3
  · intro c s h
    unfold parse at h
    split at h
    · next heq =>
      injection h with h
      rw [h] at heq
      rcases parseHeader_malformed heq with hh | hh
      · exact Or.inl hh
      · exact Or.inr (Or.inl hh)
    · next s1 heq =>
      obtain ⟨hbom, hmagic, hts⟩ := parseHeader_ok heq
      split at h
      · next heq2 =>
        injection h with h
        rw [h] at heq2
        obtain ⟨hnone, o, hgo, hlt⟩ := parseIfd0Block_malformed heq2
        refine Or.inr (Or.inr ⟨s1.le, o, hbom, hmagic, ?_, hgo, hlt⟩)
        rw [hts] at hnone
        exact hnone
      · next s2 heq2 =>
        split at h
        · next heq3 =>
          injection h with h
          rw [h] at heq3
          by_cases he : c.opts.exif
          · rw [if_pos he] at heq3
            rcases parseExifBlock_error heq3 with hh | hh <;> exact absurd hh (by decide)
          · rw [if_neg he] at heq3
            exact absurd heq3 (by simp)
        · next s3 heq3 =>
          split at h
          · next heq4 =>
            injection h with h
            rw [h] at heq4
            by_cases hgp : c.opts.gps
            · rw [if_pos hgp] at heq4
              rcases parseGpsBlock_error heq4 with hh | hh <;> exact absurd hh (by decide)
            · rw [if_neg hgp] at heq4
              exact absurd heq4 (by simp)
          · next s4 heq4 =>
            split at h
            · next heq5 =>
              injection h with h
              rw [h] at heq5
              by_cases hio : c.opts.interop
              · rw [if_pos hio] at heq5
                rcases parseInteropBlock_error heq5 with hh | hh <;> exact absurd hh (by decide)
              · rw [if_neg hio] at heq5
                exact absurd heq5 (by simp)
            · next s5 heq5 =>
              split at h
              · next heq6 =>
                injection h with h
                rw [h] at heq6
                by_cases hth : c.opts.thumbnail
                · rw [if_pos hth] at heq6
                  rcases parseThumbnailBlock_error (exceptMap_error heq6) with hh | hh <;>
                    exact absurd hh (by decide)
                · rw [if_neg hth] at heq6
                  exact absurd heq6 (by simp)
              · next s6 heq6 =>
                split at h
                · next heq7 =>
                  injection h with h
                  rw [h] at heq7
                  exact absurd (postProcess_error heq7) (by decide)
                · exact absurd h (by simp)

/-- C4 witness: a valid little-endian header; an unrecognized byte-order
marker; a big-endian header with wrong magic; an IFD0 offset of 4; and
the completeness disjunction instantiated at the bad-marker buffer. -/
theorem c4_witness :
    (bomLe bufLE = some ({initState with le := true} : TiffState).le ∧
     (({initState with le := true} : TiffState).le = true ↔
        getU16 false bufLE 0 = .ok 0x4949) ∧
     (({initState with le := true} : TiffState).le = false ↔
        getU16 false bufLE 0 = .ok 0x4D4D) ∧
     getU16 ({initState with le := true} : TiffState).le bufLE 2 = .ok 0x2A) ∧
    parseHeader (mkCtx bufBadByteOrder {}) initState = .error .malformedHeader ∧
    parseHeader (mkCtx bufBadMagic {}) initState = .error .malformedHeader ∧
    parseIfd0Block (mkCtx bufIfd0OffsetLow {}) {initState with le := true} =
      .error .malformedHeader ∧
    (bomLe bufBadByteOrder = none ∨
     (∃ le m, bomLe bufBadByteOrder = some le ∧ getU16 le bufBadByteOrder 2 = .ok m ∧
        m ≠ 0x2A) ∨
     (∃ le o, bomLe bufBadByteOrder = some le ∧ getU16 le bufBadByteOrder 2 = .ok 0x2A ∧
        (initState : TiffState).ifd0 = none ∧ getU32 le bufBadByteOrder 4 = .ok o ∧ o < 8)) := by
  refine ⟨?_, ?_, ?_, ?_, ?_⟩
  · exact c4_malformed_header.1 (mkCtx bufLE {}) initState {initState with le := true} (by decide)
  · exact c4_malformed_header.2.1 (mkCtx bufBadByteOrder {}) initState 0
      (by decide) (by decide) (by decide)
  · exact c4_malformed_header.2.2.1 (mkCtx bufBadMagic {}) initState false 0
      (by decide) (by decide) (by decide)
  · exact c4_malformed_header.2.2.2.1 (mkCtx bufIfd0OffsetLow {}) {initState with le := true} 4
      rfl (by decide) (by decide)
  · exact c4_malformed_header.2.2.2.2 (mkCtx bufBadByteOrder {}) initState (by decide)

theorem agreeExceptThumb_refl (s : TiffState) : AgreeExceptThumb s s :=
  ⟨rfl, rfl, rfl, rfl, rfl, rfl, rfl, rfl, rfl⟩

theorem stateWF_of_fresh {s : TiffState} (h1 : s.ifd0 = none) (h2 : s.exif = none)
    (h3 : s.gps = none) (h4 : s.interop = none) (h5 : s.thumbnail = none) : StateWF s := by
  unfold StateWF
  rw [h1, h2, h3, h4, h5]
  exact ⟨trivial, trivial, trivial, trivial, trivial⟩

theorem reviveBlock_wf (c : Ctx) (key : String) (b : Option ObjMap) :
    WFopt (reviveBlock c key b) := by
  cases b with
  | none => trivial
  | some m =>
    unfold reviveBlock WFopt
    exact keysNodup_foldl_objSet _ [] (by simp [keysNodup])

theorem parseIfd0Block_fields {c : Ctx} {s t : TiffState} (h : parseIfd0Block c s = .ok t) :
    t.thumbnail = s.thumbnail ∧ t.thumbnailParsed = s.thumbnailParsed ∧
    (StateWF s → StateWF t) := by
  unfold parseIfd0Block at h
  split at h
  · injection h with h
    subst h
    exact ⟨rfl, rfl, id⟩
  · split at h
    · exact absurd h (by simp)
    · split at h
      · exact absurd h (by simp)
      · split at h
        · exact absurd h (by simp)
        · next m heqm =>
          have hm := parseTags_keysNodup heqm
          split at h
          · injection h with h
            subst h
            exact ⟨rfl, rfl, fun hW => ⟨hm, hW.2.1, hW.2.2.1, hW.2.2.2.1, hW.2.2.2.2⟩⟩
          · injection h with h
            subst h
            refine ⟨rfl, rfl, fun hW => ⟨?_, hW.2.1, hW.2.2.1, hW.2.2.2.1, hW.2.2.2.2⟩⟩
            by_cases hs : c.opts.sanitize
            · simp only [hs, if_true]
              exact keysNodup_objDel (keysNodup_objDel (keysNodup_objDel hm))
            · simp only [hs, if_false]
              exact hm

theorem parseExifBlock_fields {c : Ctx} {s t : TiffState} (h : parseExifBlock c s = .ok t) :
    t.thumbnail = s.thumbnail ∧ t.thumbnailParsed = s.thumbnailParsed ∧
    (StateWF s → StateWF t) := by
  unfold parseExifBlock at h
  split at h
  · injection h with h
    subst h
    exact ⟨rfl, rfl, id⟩
  · split at h
    · injection h with h
      subst h
      exact ⟨rfl, rfl, id⟩
    · split at h
      · exact absurd h (by simp)
      · split at h
        · exact absurd h (by simp)
        · next m heqm =>
          injection h with h
          subst h
          exact ⟨rfl, rfl, fun hW =>
            ⟨hW.1, parseTags_keysNodup heqm, hW.2.2.1, hW.2.2.2.1, hW.2.2.2.2⟩⟩

theorem parseGpsBlock_fields {c : Ctx} {s t : TiffState} (h : parseGpsBlock c s = .ok t) :
    t.thumbnail = s.thumbnail ∧ t.thumbnailParsed = s.thumbnailParsed ∧
    (StateWF s → StateWF t) := by
  unfold parseGpsBlock at h
  split at h
  · injection h with h
    subst h
    exact ⟨rfl, rfl, id⟩
  · split at h
    · injection h with h
      subst h
      exact ⟨rfl, rfl, id⟩
    · split at h
      · exact absurd h (by simp)
      · split at h
        · exact absurd h (by simp)
        · next m heqm =>
          injection h with h
          subst h
          exact ⟨rfl, rfl, fun hW =>
            ⟨hW.1, hW.2.1, parseTags_keysNodup heqm, hW.2.2.2.1, hW.2.2.2.2⟩⟩

theorem parseInteropBlock_fields {c : Ctx} {s t : TiffState} (h : parseInteropBlock c s = .ok t) :
    t.thumbnail = s.thumbnail ∧ t.thumbnailParsed = s.thumbnailParsed ∧
    (StateWF s → StateWF t) := by
  unfold parseInteropBlock at h
  split at h
  · injection h with h
    subst h
    exact ⟨rfl, rfl, id⟩
  · dsimp only at h
    split at h
    · injection h with h
      subst h
      exact ⟨rfl, rfl, id⟩
    · split at h
      · exact absurd h (by simp)
      · split at h
        · exact absurd h (by simp)
        · next m heqm =>
          injection h with h
          subst h
          exact ⟨rfl, rfl, fun hW =>
            ⟨hW.1, hW.2.1, hW.2.2.1, parseTags_keysNodup heqm, hW.2.2.2.2⟩⟩

theorem parseThumbnailBlock_fields {c : Ctx} {force : Bool} {s t : TiffState} {b : Option Bool}
    (h : parseThumbnailBlock c force s = .ok (t, b)) :
    AgreeExceptThumb s t ∧ (StateWF s → StateWF t) := by
  unfold parseThumbnailBlock at h
  split at h
  · injection h with h
    rw [Prod.ext_iff] at h
    obtain ⟨h1, h2⟩ := h
    subst h1
    exact ⟨agreeExceptThumb_refl _, id⟩
  · split at h
    · injection h with h
      rw [Prod.ext_iff] at h
      obtain ⟨h1, h2⟩ := h
      subst h1
      exact ⟨agreeExceptThumb_refl _, id⟩
    · split at h
      · exact absurd h (by simp)
      · split at h
        · exact absurd h (by simp)
        · split at h
          · exact absurd h (by simp)
          · split at h
            · injection h with h
              rw [Prod.ext_iff] at h
              obtain ⟨h1, h2⟩ := h
              subst h1
              exact ⟨⟨rfl, rfl, rfl, rfl, rfl, rfl, rfl, rfl, rfl⟩,
                fun hW => ⟨hW.1, hW.2.1, hW.2.2.1, hW.2.2.2.1, hW.2.2.2.2⟩⟩
            · split at h
              · exact absurd h (by simp)
              · next m heqm =>
                injection h with h
                rw [Prod.ext_iff] at h
                obtain ⟨h1, h2⟩ := h
                subst h1
                exact ⟨⟨rfl, rfl, rfl, rfl, rfl, rfl, rfl, rfl, rfl⟩,
                  fun hW => ⟨hW.1, hW.2.1, hW.2.2.1, hW.2.2.2.1, parseTags_keysNodup heqm⟩⟩

theorem parseThumbnailBlock_merged {c : Ctx} {s : TiffState}
    (hm : c.opts.mergeOutput = true) :
    ∃ b, parseThumbnailBlock c false s = .ok (s, b) := by
  unfold parseThumbnailBlock
  by_cases hg : (s.thumbnail.isSome || s.thumbnailParsed) = true
  · rw [if_pos hg]
    exact ⟨none, rfl⟩
  · rw [if_neg hg, if_pos (by simp [hm])]
    exact ⟨some false, rfl⟩

theorem gpsRefine_wf {c : Ctx} {s u : TiffState} (h : gpsRefine c s = .ok u)
    (hW : StateWF s) : StateWF u := by
  unfold gpsRefine at h
  split at h
  · injection h with h
    subst h
    exact hW
  · next gps heqg =>
    split at h
    · split at h
      · dsimp only at h
        split at h
        · injection h with h
          subst h
          refine ⟨hW.1, hW.2.1, ?_, hW.2.2.2.1, hW.2.2.2.2⟩
          have hg : keysNodup gps := by
            have := hW.2.2.1
            rw [heqg] at this
            exact this
          exact keysNodup_objSet (keysNodup_objSet hg)
        · exact absurd h (by simp)
      · exact absurd h (by simp)
    · injection h with h
      subst h
      exact hW

theorem gpsRefine_agree {c : Ctx} {s1 s2 u1 u2 : TiffState} (hA : AgreeExceptThumb s1 s2)
    (h1 : gpsRefine c s1 = .ok u1) (h2 : gpsRefine c s2 = .ok u2) :
    AgreeExceptThumb u1 u2 ∧ u1.thumbnail = s1.thumbnail ∧ u2.thumbnail = s2.thumbnail := by
  have hg : s1.gps = s2.gps := hA.2.2.2.2.1
  unfold gpsRefine at h1 h2
  rw [← hg] at h2
  cases hgp : s1.gps with
  | none =>
    rw [hgp] at h1 h2
    injection h1 with h1
    injection h2 with h2
    subst h1
    subst h2
    exact ⟨hA, rfl, rfl⟩
  | some gps =>
    rw [hgp] at h1 h2
    dsimp only at h1 h2
    split at h1
    · next htr =>
      rw [if_pos htr] at h2
      split at h1
      · next latArr heqa =>
        rw [heqa] at h2
        dsimp only at h1 h2
        split at h1
        · next lonArr heqb =>
          rw [heqb] at h2
          injection h1 with h1
          injection h2 with h2
          subst h1
          subst h2
          exact ⟨⟨hA.1, hA.2.1, hA.2.2.1, hA.2.2.2.1, rfl, hA.2.2.2.2.2.1,
            hA.2.2.2.2.2.2.1, hA.2.2.2.2.2.2.2.1, hA.2.2.2.2.2.2.2.2⟩, rfl, rfl⟩
        · exact absurd h1 (by simp)
      · exact absurd h1 (by simp)
    · next htr =>
      rw [if_neg htr] at h2
      injection h1 with h1
      injection h2 with h2
      subst h1
      subst h2
      exact ⟨hA, rfl, rfl⟩

theorem postProcess_wf {c : Ctx} {s t : TiffState} (h : postProcess c s = .ok t)
    (hW : StateWF s) : StateWF t := by
  unfold postProcess at h
  split at h
  · injection h with h
    subst h
    exact hW
  · split at h
    · exact absurd h (by simp)
    · next u hequ =>
      have hWu := gpsRefine_wf hequ hW
      split at h
      · injection h with h
        subst h
        exact ⟨reviveBlock_wf c "ifd0" u.ifd0, reviveBlock_wf c "exif" u.exif,
          reviveBlock_wf c "gps" u.gps, reviveBlock_wf c "interop" u.interop,
          reviveBlock_wf c "thumbnail" u.thumbnail⟩
      · injection h with h
        subst h
        exact hWu

theorem postProcess_agree {c : Ctx} {s1 s2 t1 t2 : TiffState} (hA : AgreeExceptThumb s1 s2)
    (h1 : postProcess c s1 = .ok t1) (h2 : postProcess c s2 = .ok t2) :
    AgreeExceptThumb t1 t2 ∧ (s2.thumbnail = none → t2.thumbnail = none) := by
  unfold postProcess at h1 h2
  split at h1
  · next hc =>
    rw [if_pos hc] at h2
    injection h1 with h1
    injection h2 with h2
    subst h1
    subst h2
    exact ⟨hA, fun hh => hh⟩
  · next hc =>
    rw [if_neg hc] at h2
    split at h1
    · exact absurd h1 (by simp)
    · next u1 hequ1 =>
      split at h2
      · exact absurd h2 (by simp)
      · next u2 hequ2 =>
        obtain ⟨hAu, hth1, hth2⟩ := gpsRefine_agree hA hequ1 hequ2
        split at h1
        · next htr =>
          rw [if_pos htr] at h2
          injection h1 with h1
          injection h2 with h2
          subst h1
          subst h2
          constructor
          · exact ⟨hAu.1, hAu.2.1, by rw [hAu.2.2.1], by rw [hAu.2.2.2.1],
              by rw [hAu.2.2.2.2.1], by rw [hAu.2.2.2.2.2.1], hAu.2.2.2.2.2.2.1,
              hAu.2.2.2.2.2.2.2.1, hAu.2.2.2.2.2.2.2.2⟩
          · intro hh
            have : u2.thumbnail = none := by rw [hth2, hh]
            simp only [this]
            rfl
        · next htr =>
          rw [if_neg htr] at h2
          injection h1 with h1
          injection h2 with h2
          subst h1
          subst h2
          exact ⟨hAu, fun hh => by rw [hth2, hh]⟩

theorem objGet_eq_none_of_not_mem {m : ObjMap} {a : String} (h : a ∉ m.map Prod.fst) :
    objGet m a = none := by
  unfold objGet
  have : m.find? (fun p => p.1 == a) = none := by
    rw [List.find?_eq_none]
    intro x hx
    simp only [beq_iff_eq]
    intro hxa
    exact h (List.mem_map.mpr ⟨x, hx, hxa⟩)
  rw [this]
  rfl

theorem objGet_foldl_set (m : ObjMap) :
    ∀ (acc : ObjMap) (k : String), keysNodup m →
      objGet (m.foldl (fun acc p => objSet acc p.1 p.2) acc) k =
        (objGet m k).orElse (fun _ => objGet acc k) := by
  induction m with
  | nil =>
    intro acc k _
    simp [objGet_nil, Option.orElse]
  | cons p rest ih =>
    intro acc k hnd
    obtain ⟨a, b⟩ := p
    have hnd' : keysNodup rest := by
      unfold keysNodup at hnd ⊢
      exact (List.nodup_cons.mp hnd).2
    have hnotin : a ∉ rest.map Prod.fst := by
      unfold keysNodup at hnd
      exact (List.nodup_cons.mp hnd).1
    simp only [List.foldl_cons]
    rw [ih _ k hnd', objGet_cons, objGet_objSet]
    by_cases hk : a = k
    · subst hk
      rw [objGet_eq_none_of_not_mem hnotin]
      simp [Option.orElse]
    · rw [if_neg hk, if_neg (fun hh : k = a => hk hh.symm)]

theorem objGet_objAssign {acc : ObjMap} {b : Option ObjMap} (hW : WFopt b) (k : String) :
    objGet (objAssign acc b) k = (objGetO b k).orElse (fun _ => objGet acc k) := by
  cases b with
  | none => simp [objAssign, objGetO, Option.orElse]
  | some m => exact objGet_foldl_set m acc k hW

/-- Lookup in the flattened `Object.assign` map: later blocks take
precedence, in the order ifd0, exif, gps, interop (the thumbnail block is
absent in a merged-mode parse). -/
theorem mergedMap_lookup {s : TiffState} (hW : StateWF s) (hth : s.thumbnail = none)
    (k : String) :
    objGet (mergedMap s) k =
      (objGetO s.interop k).orElse (fun _ =>
        (objGetO s.gps k).orElse (fun _ =>
          (objGetO s.exif k).orElse (fun _ => objGetO s.ifd0 k))) := by
  unfold mergedMap
  rw [hth]
  show objGet (objAssign _ (none : Option ObjMap)) k = _
  rw [objGet_objAssign (show WFopt none from trivial), objGet_objAssign hW.2.2.2.1,
      objGet_objAssign hW.2.2.1, objGet_objAssign hW.2.1, objGet_objAssign hW.1]
  have horelse : ∀ x : Option JSVal, (Option.orElse x (fun _ => none)) = x := by
    intro x
    cases x <;> rfl
  simp only [objGetO, objGet_nil, horelse]
  rfl

theorem agreeExceptThumb_symm {s t : TiffState} (h : AgreeExceptThumb s t) :
    AgreeExceptThumb t s :=
  ⟨h.1.symm, h.2.1.symm, h.2.2.1.symm, h.2.2.2.1.symm, h.2.2.2.2.1.symm,
   h.2.2.2.2.2.1.symm, h.2.2.2.2.2.2.1.symm, h.2.2.2.2.2.2.2.1.symm,
   h.2.2.2.2.2.2.2.2.symm⟩

theorem stageExif_fields {c : Ctx} {s t : TiffState}
    (h : (if c.opts.exif then parseExifBlock c s else .ok s) = .ok t) :
    t.thumbnail = s.thumbnail ∧ t.thumbnailParsed = s.thumbnailParsed ∧
    (StateWF s → StateWF t) := by
  split at h
  · exact parseExifBlock_fields h
  · injection h with h
    subst h
    exact ⟨rfl, rfl, id⟩

theorem stageGps_fields {c : Ctx} {s t : TiffState}
    (h : (if c.opts.gps then parseGpsBlock c s else .ok s) = .ok t) :
    t.thumbnail = s.thumbnail ∧ t.thumbnailParsed = s.thumbnailParsed ∧
    (StateWF s → StateWF t) := by
  split at h
  · exact parseGpsBlock_fields h
  · injection h with h
    subst h
    exact ⟨rfl, rfl, id⟩

theorem stageInterop_fields {c : Ctx} {s t : TiffState}
    (h : (if c.opts.interop then parseInteropBlock c s else .ok s) = .ok t) :
    t.thumbnail = s.thumbnail ∧ t.thumbnailParsed = s.thumbnailParsed ∧
    (StateWF s → StateWF t) := by
  split at h
  · exact parseInteropBlock_fields h
  · injection h with h
    subst h
    exact ⟨rfl, rfl, id⟩

theorem stageThumb_fields {c : Ctx} {s t : TiffState}
    (h : (if c.opts.thumbnail then (parseThumbnailBlock c false s).map Prod.fst
          else .ok s) = .ok t) :
    AgreeExceptThumb s t ∧ (StateWF s → StateWF t) := by
  split at h
  · cases hp : parseThumbnailBlock c false s with
    | error e => rw [hp] at h; exact absurd h (by simp [Except.map])
    | ok pb =>
      obtain ⟨t', b⟩ := pb
      rw [hp] at h
      simp only [Except.map] at h
      injection h with h
      subst h
      exact parseThumbnailBlock_fields hp
  · injection h with h
    subst h
    exact ⟨agreeExceptThumb_refl _, id⟩

theorem stageThumb_merged {c : Ctx} {s : TiffState} (hm : c.opts.mergeOutput = true) :
    (if c.opts.thumbnail then (parseThumbnailBlock c false s).map Prod.fst
     else .ok s) = .ok s := by
  split
  · obtain ⟨b, hb⟩ := parseThumbnailBlock_merged hm
    rw [hb]
    rfl
  · rfl

/-- C6 (amended): for a fresh parse of the same buffer under
configurations differing only in `mergeOutput`, the two runs (when both
succeed) produce identical `ifd0`, `exif`, `gps` and `interop` blocks;
the merged run never decodes the thumbnail block (its skip guard), so the
flat output is the flattening of the four other blocks with later-decoded
blocks taking precedence on key collision (`Object.assign` order ifd0,
exif, gps, interop), while the grouped output additionally carries the
thumbnail block when one was decoded. -/
theorem c6_merge_output_amended :
    ∀ (buf : Buffer) (opts : Options) (tv : String → JSVal → JSVal)
      (dict : String → String → Option String) (conv : List JSNum → Option JSVal → JSNum)
      (s sF sT : TiffState) (oF oT : Output),
      s.ifd0 = none → s.exif = none → s.gps = none → s.interop = none →
      s.thumbnail = none → s.thumbnailParsed = false →
      parse ⟨buf, {opts with mergeOutput := false}, tv, dict, conv⟩ s = .ok (sF, oF) →
      parse ⟨buf, {opts with mergeOutput := true}, tv, dict, conv⟩ s = .ok (sT, oT) →
      sF.ifd0 = sT.ifd0 ∧ sF.exif = sT.exif ∧ sF.gps = sT.gps ∧ sF.interop = sT.interop ∧
      sT.thumbnail = none ∧
      oF = buildOutput false sF ∧ oT = buildOutput true sT ∧
      (∀ k, objGet (mergedMap sT) k =
        (objGetO sT.interop k).orElse (fun _ =>
          (objGetO sT.gps k).orElse (fun _ =>
            (objGetO sT.exif k).orElse (fun _ => objGetO sT.ifd0 k)))) := by
  intro buf opts tv dict conv s sF sT oF oT h1 h2 h3 h4 h5 h6 hF hT
  unfold parse at hF hT
  cases hh : parseHeader ⟨buf, {opts with mergeOutput := false}, tv, dict, conv⟩ s with
  | error e => rw [hh] at hF; exact absurd hF (by simp)
  | ok s1 =>
  rw [hh] at hF
  dsimp only at hF
  have hhT : parseHeader ⟨buf, {opts with mergeOutput := true}, tv, dict, conv⟩ s = .ok s1 := hh
  rw [hhT] at hT
  dsimp only at hT
  obtain ⟨hbom1, hmag1, hs1⟩ := parseHeader_ok hh
  have h1' : s1.ifd0 = none := by rw [hs1]; exact h1
  have h2' : s1.exif = none := by rw [hs1]; exact h2
  have h3' : s1.gps = none := by rw [hs1]; exact h3
  have h4' : s1.interop = none := by rw [hs1]; exact h4
  have h5' : s1.thumbnail = none := by rw [hs1]; exact h5
  have h6' : s1.thumbnailParsed = false := by rw [hs1]; exact h6
  cases hifd : parseIfd0Block ⟨buf, {opts with mergeOutput := false}, tv, dict, conv⟩ s1 with
  | error e => rw [hifd] at hF; exact absurd hF (by simp)
  | ok s2 =>
  rw [hifd] at hF
  dsimp only at hF
  have hifdT : parseIfd0Block ⟨buf, {opts with mergeOutput := true}, tv, dict, conv⟩ s1 =
      .ok s2 := hifd
  rw [hifdT] at hT
  dsimp only at hT
  obtain ⟨hth2, hpar2, hW2f⟩ := parseIfd0Block_fields hifd
  have hW2 : StateWF s2 := hW2f (stateWF_of_fresh h1' h2' h3' h4' h5')
  have hth2' : s2.thumbnail = none := by rw [hth2]; exact h5'
  have hpar2' : s2.thumbnailParsed = false := by rw [hpar2]; exact h6'
  split at hF
  · exact absurd hF (by simp)
  next s3 heq3 =>
  have heq3T : (if opts.exif then
      parseExifBlock ⟨buf, {opts with mergeOutput := true}, tv, dict, conv⟩ s2
    else .ok s2) = .ok s3 := heq3
  rw [heq3T] at hT
  dsimp only at hT
  obtain ⟨hth3, hpar3, hW3f⟩ :=
    @stageExif_fields ⟨buf, {opts with mergeOutput := false}, tv, dict, conv⟩ s2 s3 heq3
  have hW3 : StateWF s3 := hW3f hW2
  have hth3' : s3.thumbnail = none := by rw [hth3]; exact hth2'
  have hpar3' : s3.thumbnailParsed = false := by rw [hpar3]; exact hpar2'
  split at hF
  · exact absurd hF (by simp)
  next s4 heq4 =>
  have heq4T : (if opts.gps then
      parseGpsBlock ⟨buf, {opts with mergeOutput := true}, tv, dict, conv⟩ s3
    else .ok s3) = .ok s4 := heq4
  rw [heq4T] at hT
  dsimp only at hT
  obtain ⟨hth4, hpar4, hW4f⟩ :=
    @stageGps_fields ⟨buf, {opts with mergeOutput := false}, tv, dict, conv⟩ s3 s4 heq4
  have hW4 : StateWF s4 := hW4f hW3
  have hth4' : s4.thumbnail = none := by rw [hth4]; exact hth3'
  have hpar4' : s4.thumbnailParsed = false := by rw [hpar4]; exact hpar3'
  split at hF
  · exact absurd hF (by simp)
  next s5 heq5 =>
  have heq5T : (if opts.interop then
      parseInteropBlock ⟨buf, {opts with mergeOutput := true}, tv, dict, conv⟩ s4
    else .ok s4) = .ok s5 := heq5
  rw [heq5T] at hT
  dsimp only at hT
  obtain ⟨hth5, hpar5, hW5f⟩ :=
    @stageInterop_fields ⟨buf, {opts with mergeOutput := false}, tv, dict, conv⟩ s4 s5 heq5
  have hW5 : StateWF s5 := hW5f hW4
  have hth5' : s5.thumbnail = none := by rw [hth5]; exact hth4'
  split at hF
  · exact absurd hF (by simp)
  next s6 heq6 =>
  have hmT : (if opts.thumbnail then
      (parseThumbnailBlock ⟨buf, {opts with mergeOutput := true}, tv, dict, conv⟩
        false s5).map Prod.fst
    else .ok s5) = .ok s5 :=
    @stageThumb_merged ⟨buf, {opts with mergeOutput := true}, tv, dict, conv⟩ s5 rfl
  rw [hmT] at hT
  dsimp only at hT
  obtain ⟨hA56, hW6f⟩ :=
    @stageThumb_fields ⟨buf, {opts with mergeOutput := false}, tv, dict, conv⟩ s5 s6 heq6
  have hW6 : StateWF s6 := hW6f hW5
  split at hF
  · exact absurd hF (by simp)
  next s7F heq7 =>
  split at hT
  · exact absurd hT (by simp)
  next s7T heq7T =>
  have heq7T' : postProcess ⟨buf, {opts with mergeOutput := false}, tv, dict, conv⟩ s5 =
      .ok s7T := heq7T
  obtain ⟨hAgree, hthT⟩ := postProcess_agree (agreeExceptThumb_symm hA56) heq7 heq7T'
  have hthT' : s7T.thumbnail = none := hthT hth5'
  have hW7T : StateWF s7T := postProcess_wf heq7T' hW5
  injection hF with hF
  rw [Prod.ext_iff] at hF
  obtain ⟨hsF, hoF⟩ := hF
  injection hT with hT
  rw [Prod.ext_iff] at hT
  obtain ⟨hsT, hoT⟩ := hT
  subst hsF
  subst hsT
  refine ⟨hAgree.2.2.1, hAgree.2.2.2.1, hAgree.2.2.2.2.1, hAgree.2.2.2.2.2.1, hthT',
    hoF.symm, hoT.symm, ?_⟩
  intro k
  exact mergedMap_lookup hW7T hthT' k

/-- C6 counterexample: parsing `bufLE` (which contains a thumbnail
directory with tag `0x0103`) with `thumbnail` enabled yields, in merged
mode, a flat map with no binding at all for tag `0x0103`, while non-merged
mode yields a `thumbnail` block containing it — the two modes do not
produce the same set of tag values per block. -/
theorem c6_counterexample :
    (parse (mkCtx bufLE {thumbnail := true, mergeOutput := true}) initState).map Prod.snd =
      .ok (.merged [(natKey 0x0100, .num (.int 640))]) ∧
    (parse (mkCtx bufLE {thumbnail := true, mergeOutput := false}) initState).map Prod.snd =
      .ok (.grouped [("ifd0", [(natKey 0x0100, .num (.int 640))]),
                     ("thumbnail", [(natKey 0x0103, .num (.int 6))])]) ∧
    objGet [(natKey 0x0100, JSVal.num (JSNum.int 640))] (natKey 0x0103) = none ∧
    objGet [(natKey 0x0103, JSVal.num (JSNum.int 6))] (natKey 0x0103) =
      some (.num (.int 6)) := by
  refine ⟨by decide, by decide, by decide, by decide⟩

/-- C6 witness: the amended claim instantiated on the two concrete parses
of `bufLE`. -/
theorem c6_witness :
    c6StateF.ifd0 = c6StateT.ifd0 ∧ c6StateF.exif = c6StateT.exif ∧
    c6StateF.gps = c6StateT.gps ∧ c6StateF.interop = c6StateT.interop ∧
    c6StateT.thumbnail = none ∧
    Output.grouped [("ifd0", [(natKey 0x0100, .num (.int 640))]),
                    ("thumbnail", [(natKey 0x0103, .num (.int 6))])] =
      buildOutput false c6StateF ∧
    Output.merged [(natKey 0x0100, .num (.int 640))] = buildOutput true c6StateT ∧
    (∀ k, objGet (mergedMap c6StateT) k =
      (objGetO c6StateT.interop k).orElse (fun _ =>
        (objGetO c6StateT.gps k).orElse (fun _ =>
          (objGetO c6StateT.exif k).orElse (fun _ => objGetO c6StateT.ifd0 k)))) :=
  c6_merge_output_amended bufLE {thumbnail := true} (fun _ v => v) (fun _ _ => none)
    (fun _ _ => .int 0) initState c6StateF c6StateT
    (Output.grouped [("ifd0", [(natKey 0x0100, .num (.int 640))]),
                     ("thumbnail", [(natKey 0x0103, .num (.int 6))])])
    (Output.merged [(natKey 0x0100, .num (.int 640))])
    rfl rfl rfl rfl rfl rfl (by decide) (by decide)
